import Mathlib

/-!
Verification of the thermodynamic property-resolution engine of the ThermoApp
repository (src/main.py) against its natural-language specification.

The Python source is shallowly embedded here:

* the saturated-water table (pandas DataFrame) becomes a `List Row`;
* float arithmetic is modelled by exact rationals `ℚ` (ideal-gas process
  formulas, which need `log` and real exponentiation, are modelled over `ℝ`);
* Python `round(v, d)` (round-half-to-even) becomes `roundDp d`;
* the optional IAPWS-IF97 library is an abstract parameter `IapwsLib`; a call
  that raises is modelled by the parameter returning `none`;
* a Python function that may raise returns `Except String _`; a Python
  function that may return `None` returns an `Option`;
* the single-slot in-memory store is threaded explicitly (a rejected request
  returns the store unchanged).

Displayed results are modelled before the final display rounding of the HTTP
layer, except where the source itself stores rounded values
(`submit_gas` stores rounded fields; `get_tsat` rounds to 5 decimals).
-/

/-- One row of static/saturated_water.csv as loaded into `water_df`. -/
structure Row where
  T_sat : ℚ
  P_bar : ℚ
  vf : ℚ
  vg : ℚ
  uf : ℚ
  ug : ℚ
  hf : ℚ
  hfg : ℚ
  sf : ℚ
  sg : ℚ
deriving DecidableEq

/-- pandas `df[col].min()` over a column of the table (0 for an empty frame,
a case the source never reads). -/
def colMin (l : List Row) (f : Row → ℚ) : ℚ :=
  match l with
  | [] => 0
  | a :: t => t.foldl (fun m r => min m (f r)) (f a)

/-- pandas `df[col].max()` over a column of the table. -/
def colMax (l : List Row) (f : Row → ℚ) : ℚ :=
  match l with
  | [] => 0
  | a :: t => t.foldl (fun m r => max m (f r)) (f a)

/-- pandas `df[df[key] <= q].iloc[-1]`: the last row whose key is at most `q`
(`none` models the `IndexError` raised on an empty selection). -/
def bracketLow (key : Row → ℚ) (l : List Row) (q : ℚ) : Option Row :=
  (l.filter fun r => decide (key r ≤ q)).getLast?

/-- pandas `df[df[key] >= q].iloc[0]`: the first row whose key is at least `q`. -/
def bracketHigh (key : Row → ℚ) (l : List Row) (q : ℚ) : Option Row :=
  (l.filter fun r => decide (q ≤ key r)).head?

/-- The shared linear-interpolation step of the source: short-circuit when the
two bracketing rows carry the same key (avoiding division by zero), otherwise
`val1 + (val2 - val1) * (q - key1) / (key2 - key1)`. -/
def linInterp (key val : Row → ℚ) (lo hi : Row) (q : ℚ) : ℚ :=
  if key lo = key hi then val lo
  else val lo + (val hi - val lo) * (q - key lo) / (key hi - key lo)

/-- Bracket-and-interpolate at `q` (0 when a bracket is missing, which is
unreachable for a nonempty table and in-range `q`). -/
def interpAt (key val : Row → ℚ) (l : List Row) (q : ℚ) : ℚ :=
  match bracketLow key l q, bracketHigh key l q with
  | some lo, some hi => linInterp key val lo hi q
  | _, _ => 0

/-- Python `round` to an integer: round half to even (banker's rounding),
modelled exactly on rationals. -/
def rhe (q : ℚ) : ℤ :=
  let n := ⌊q⌋
  if q - n < 1/2 then n
  else if 1/2 < q - n then n + 1
  else if 2 ∣ n then n else n + 1

/-- Python `round(q, d)`. -/
def roundDp (d : ℕ) (q : ℚ) : ℚ := (rhe (q * 10 ^ d) : ℚ) / 10 ^ d

/-- Insertion step of the sort used to model pandas `sort_values`. -/
def insertSorted (f : Row → ℚ) (r : Row) : List Row → List Row
  | [] => [r]
  | a :: t => if f r ≤ f a then r :: a :: t else a :: insertSorted f r t

/-- pandas `df.sort_values(key)` (on the strictly monotone tables the source
loads, any correct sort agrees with this one). -/
def sortRows (f : Row → ℚ) (l : List Row) : List Row := l.foldr (insertSorted f) []

/-- The boundary clamp `if q < lo: q = lo elif hi < q: q = hi` shared by the
three lookup helpers. -/
def clampTo (lo hi q : ℚ) : ℚ := if q < lo then lo else if hi < q then hi else q

/-- `interpolate_water_property_by_T` (src/main.py:44): clamp `T_C` to the
table range, bracket by `T_sat` in table order (the source does not sort
here), and linearly interpolate the column `prop`.  `.ok none` is the Python
`None` returned for an empty table; `.error` is the `IndexError` of an empty
bracket selection. -/
def interpolate_water_property_by_T (table : List Row) (T_C : ℚ) (prop : Row → ℚ) :
    Except String (Option ℚ) :=
  if table = [] then .ok none
  else
    let Tmin := colMin table (fun r => r.T_sat)
    let Tmax := colMax table (fun r => r.T_sat)
    let Tc := clampTo Tmin Tmax T_C
    match bracketLow (fun r => r.T_sat) table Tc, bracketHigh (fun r => r.T_sat) table Tc with
    | some lo, some hi => .ok (some (linInterp (fun r => r.T_sat) prop lo hi Tc))
    | _, _ => .error "IndexError"

/-- `get_tsat` (src/main.py:73): saturation temperature for pressure `P` (bar),
sorting by `P_bar`, clamping to the table range with a `clamped` flag, linear
interpolation, and `round(Tsat, 5)`.  `(none, false)` models the
`return None, False` for an empty table. -/
def get_tsat (table : List Row) (P : ℚ) : Option ℚ × Bool :=
  if table = [] then (none, false)
  else
    let s := sortRows (fun r => r.P_bar) table
    let Pmin := colMin s (fun r => r.P_bar)
    let Pmax := colMax s (fun r => r.P_bar)
    let clamped := decide (P < Pmin) || decide (Pmax < P)
    let Pc := clampTo Pmin Pmax P
    match bracketLow (fun r => r.P_bar) s Pc, bracketHigh (fun r => r.P_bar) s Pc with
    | some lo, some hi =>
        (some (roundDp 5 (linInterp (fun r => r.P_bar) (fun r => r.T_sat) lo hi Pc)), clamped)
    | _, _ => (none, clamped)

/-- `get_psat` (src/main.py:105): saturation pressure for temperature `T_C`,
the mirror image of `get_tsat`. -/
def get_psat (table : List Row) (T_C : ℚ) : Option ℚ × Bool :=
  if table = [] then (none, false)
  else
    let s := sortRows (fun r => r.T_sat) table
    let Tmin := colMin s (fun r => r.T_sat)
    let Tmax := colMax s (fun r => r.T_sat)
    let clamped := decide (T_C < Tmin) || decide (Tmax < T_C)
    let Tc := clampTo Tmin Tmax T_C
    match bracketLow (fun r => r.T_sat) s Tc, bracketHigh (fun r => r.T_sat) s Tc with
    | some lo, some hi =>
        (some (roundDp 5 (linInterp (fun r => r.T_sat) (fun r => r.P_bar) lo hi Tc)), clamped)
    | _, _ => (none, clamped)

/-- The property vector of one `IAPWS97(...)` library object access
(`.v`, `.u`, `.h`, `.s`, `.P`). -/
structure LibProps where
  v : ℚ
  u : ℚ
  h : ℚ
  s : ℚ
  P : ℚ
deriving DecidableEq

/-- The external IAPWS library, abstracted: `byTx T_K x` models
`IAPWS97(T=T_K, x=x)` and `byTP T_K P_MPa` models `IAPWS97(T=T_K, P=P_MPa)`;
`none` models a constructor call that raises. -/
structure IapwsLib where
  byTx : ℚ → ℚ → Option LibProps
  byTP : ℚ → ℚ → Option LibProps

/-- The canonical water property record returned by the resolver
(the dict built at src/main.py:202 and 288). -/
structure WaterRecord where
  T : ℚ
  P : ℚ
  P_sat : ℚ
  x : ℚ
  v : ℚ
  u : ℚ
  h : ℚ
  s : ℚ
  vf : ℚ
  vg : ℚ
  uf : ℚ
  ug : ℚ
  hf : ℚ
  hfg : ℚ
  sf : ℚ
  sg : ℚ
  source : String
deriving DecidableEq

/-- `calculate_water_properties_iapws` (src/main.py:139).  `avail` is
`IAPWS_AVAILABLE`; a `none` result models both the `return None` when the
library is missing and the `except` branch returning `None` when a library
call raises. -/
def calculate_water_properties_iapws (avail : Bool) (lib : IapwsLib)
    (T_C P_bar x : ℚ) : Option WaterRecord :=
  if !avail then none
  else
    let P_MPa := P_bar * (1/10)
    let T_K := T_C + 273.15
    let water? := if 0 < x ∧ x < 1 then lib.byTx T_K x else lib.byTP T_K P_MPa
    match water? with
    | none => none
    | some water =>
      -- inner try block: saturation references, zeroed out if either call raises
      let satRef :=
        match lib.byTx T_K 0, lib.byTx T_K 1 with
        | some satL, some satV =>
            (satL.v, satV.v, satL.u, satV.u, satL.h, satV.h, satL.s, satV.s,
              satV.h - satL.h, satL.P * 10)
        | _, _ => (0, 0, 0, 0, 0, 0, 0, 0, 0, P_bar)
      match satRef with
      | (vf, vg, uf, ug, hf, _hg, sf, sg, hfg, P_sat_at_T) =>
        let actual_x :=
          if 0 < x ∧ x < 1 then x
          else if vf ≠ 0 ∧ vg ≠ 0 ∧ vg ≠ vf then
            max 0 (min 1 ((water.v - vf) / (vg - vf)))
          else x
        some { T := T_C, P := P_bar, P_sat := P_sat_at_T, x := roundDp 4 actual_x,
               v := water.v, u := water.u, h := water.h, s := water.s,
               vf := vf, vg := vg, uf := uf, ug := ug, hf := hf, hfg := hfg,
               sf := sf, sg := sg, source := "IAPWS-IF97" }

/-- Python truthiness-guarded `o and T < o` (as in
`T_sat_at_P and T_input < T_sat_at_P`): false when `o` is `None` or `0`. -/
def pyLtGuard (o : Option ℚ) (T : ℚ) : Bool :=
  match o with
  | none => false
  | some t => if t = 0 then false else decide (T < t)

/-- Python truthiness-guarded `o and T > o`. -/
def pyGtGuard (o : Option ℚ) (T : ℚ) : Bool :=
  match o with
  | none => false
  | some t => if t = 0 then false else decide (t < T)

/-- One required interpolation input of the fallback path: an interpolation
that produced `None` becomes the `ValueError` raised at src/main.py:271. -/
def reqProp (table : List Row) (T_C : ℚ) (prop : Row → ℚ) : Except String ℚ :=
  match interpolate_water_property_by_T table T_C prop with
  | .error e => .error e
  | .ok none => .error "ValueError: Required water property data could not be interpolated."
  | .ok (some v) => .ok v

/-- The CSV-interpolation fallback block of `calculate_water_properties`
(src/main.py:258-306): interpolate the eight saturation columns and the
saturation pressure at `T_C`, apply the linear mixing law with quality `x`,
and report the table saturation pressure when `0 <= x <= 1`, the user's
pressure otherwise. -/
def csv_fallback (table : List Row) (T_C P_bar x : ℚ) : Except String WaterRecord := do
  let vf ← reqProp table T_C (fun r => r.vf)
  let vg ← reqProp table T_C (fun r => r.vg)
  let uf ← reqProp table T_C (fun r => r.uf)
  let ug ← reqProp table T_C (fun r => r.ug)
  let hf ← reqProp table T_C (fun r => r.hf)
  let hfg ← reqProp table T_C (fun r => r.hfg)
  let sf ← reqProp table T_C (fun r => r.sf)
  let sg ← reqProp table T_C (fun r => r.sg)
  let P_sat_at_T_csv ← reqProp table T_C (fun r => r.P_bar)
  let v := vf + x * (vg - vf)
  let u := uf + x * (ug - uf)
  let h := hf + x * hfg
  let s := sf + x * (sg - sf)
  let display_P := if 0 ≤ x ∧ x ≤ 1 then P_sat_at_T_csv else P_bar
  .ok { T := T_C, P := display_P, P_sat := P_sat_at_T_csv, x := x,
        v := v, u := u, h := h, s := s,
        vf := vf, vg := vg, uf := uf, ug := ug, hf := hf, hfg := hfg,
        sf := sf, sg := sg, source := "CSV Interpolation" }

/-- `calculate_water_properties` (src/main.py:228): classify against the
saturation temperature at `P_bar`, use IAPWS for strictly
superheated/subcooled states when available (forcing the displayed quality to
1 or 0), and otherwise fall back to CSV interpolation. -/
def calculate_water_properties (avail : Bool) (lib : IapwsLib) (table : List Row)
    (T_C P_bar x : ℚ) : Except String WaterRecord :=
  let T_sat_at_P := (get_tsat table P_bar).1
  let _P_sat_at_T := (get_psat table T_C).1
  let is_superheated := pyGtGuard T_sat_at_P T_C
  let is_subcooled := pyLtGuard T_sat_at_P T_C
  if avail && (is_superheated || is_subcooled) then
    match calculate_water_properties_iapws avail lib T_C P_bar x with
    | some r0 =>
        .ok { r0 with x := if is_superheated then 1 else if is_subcooled then 0 else r0.x }
    | none => csv_fallback table T_C P_bar x
  else csv_fallback table T_C P_bar x

/-- The water record stored in `gas_data_store["latest_submission"]` by
`submit_gas` (src/main.py:418-444). -/
structure StoredWater where
  gas_name : String
  T_original : ℚ
  P_original : ℚ
  T_sat_at_P : Option ℚ
  P_sat_at_T : Option ℚ
  T : ℚ
  P : ℚ
  x : ℚ
  phase : String
  v : ℚ
  u : ℚ
  h : ℚ
  s : ℚ
  vf : ℚ
  vg : ℚ
  uf : ℚ
  ug : ℚ
  hf : ℚ
  hfg : ℚ
  sf : ℚ
  sg : ℚ
  source : String
deriving DecidableEq

/-- The water branch of `submit_gas` (src/main.py:396-444): resolve the
properties, classify the phase (input quality checked before the temperature
comparison), and build the stored State 1 record.  An exception from the
resolver becomes the 400 error response of the outer `except`. -/
def submit_gas_water (avail : Bool) (lib : IapwsLib) (table : List Row)
    (T_input P_input x : ℚ) : Except String StoredWater :=
  let T_sat_at_P := (get_tsat table P_input).1
  let P_sat_at_T := (get_psat table T_input).1
  match calculate_water_properties avail lib table T_input P_input x with
  | .error e => .error e
  | .ok wp =>
    let phase :=
      if x = 0 ∨ pyLtGuard T_sat_at_P T_input = true then "subcooled_liquid"
      else if x = 1 ∨ pyGtGuard T_sat_at_P T_input = true then "superheated_vapor"
      else if 0 < x ∧ x < 1 then "two_phase"
      else "saturated"
    .ok { gas_name := "water", T_original := T_input, P_original := P_input,
          T_sat_at_P := T_sat_at_P, P_sat_at_T := P_sat_at_T,
          T := T_input, P := wp.P, x := wp.x, phase := phase,
          v := roundDp 6 wp.v, u := roundDp 2 wp.u, h := roundDp 2 wp.h,
          s := roundDp 4 wp.s,
          vf := roundDp 6 wp.vf, vg := roundDp 4 wp.vg, uf := roundDp 2 wp.uf,
          ug := roundDp 2 wp.ug, hf := roundDp 2 wp.hf, hfg := roundDp 2 wp.hfg,
          sf := roundDp 4 wp.sf, sg := roundDp 4 wp.sg,
          source := wp.source }

/-- The ideal-gas record stored by `submit_gas` (src/main.py:478-490). -/
structure StoredGas where
  gas_name : String
  T : ℚ
  P : ℚ
  v : ℚ
  cp : ℚ
  cv : ℚ
  R : ℚ
  k : ℚ
  u : ℚ
  h : ℚ
  s : ℚ
deriving DecidableEq

/-- The JSON response of `submit_gas` for the ideal-gas branch. -/
inductive SubmitResult where
  | success
  | error (msg : String)
deriving DecidableEq

/-- The `predefined_gases` dict (src/main.py:330): `(R, k)` per gas. -/
def predefined_gases : String → Option (ℚ × ℚ)
  | "air" => some (0.287, 1.4)
  | "nitrogen" => some (0.2968, 1.4)
  | "methane" => some (0.518, 1.299)
  | "oxygen" => some (0.2598, 1.395)
  | _ => none

/-- The ideal-gas branch of `submit_gas` (src/main.py:447-490), with the
single-slot store threaded explicitly: the result is the new store content
together with the JSON response.  A `KeyError` from an unknown predefined gas
and an invalid custom `cp`/`cv` pair both leave the store untouched. -/
def submit_gas_ideal (store : Option StoredGas) (gas_name : String) (P v : ℚ)
    (cp0 cv0 : Option ℚ) : Option StoredGas × SubmitResult :=
  if gas_name ≠ "custom" then
    match predefined_gases gas_name with
    | none => (store, .error "Submission failed: KeyError")
    | some Rk =>
        let R := Rk.1
        let k := Rk.2
        let cv := R / (k - 1)
        let cp := k * cv
        let T := P * v / R
        let u := cv * T
        let h := cp * T
        (some { gas_name := gas_name, T := roundDp 5 T, P := P, v := v,
                cp := roundDp 5 cp, cv := roundDp 5 cv, R := roundDp 5 R,
                k := roundDp 5 k, u := roundDp 2 u, h := roundDp 2 h, s := 0 },
          .success)
  else
    match cp0, cv0 with
    | some cp, some cv =>
        if cp ≤ cv then (store, .error "Invalid cp/cv for custom gas")
        else
          let R := cp - cv
          let k := cp / cv
          let T := P * v / R
          let u := cv * T
          let h := cp * T
          (some { gas_name := gas_name, T := roundDp 5 T, P := P, v := v,
                  cp := roundDp 5 cp, cv := roundDp 5 cv, R := roundDp 5 R,
                  k := roundDp 5 k, u := roundDp 2 u, h := roundDp 2 h, s := 0 },
            .success)
    | _, _ => (store, .error "Invalid cp/cv for custom gas")

/-- The State 2 calculation temperature fixed by the process constraint
(src/main.py:588-610). -/
def nextStageCalcT (process : String) (T_original : ℚ) (T_sat_at_P : Option ℚ)
    (T_input : Option ℚ) : Option ℚ :=
  if process = "Isothermal" then some T_original
  else if process = "Isobaric" then
    match T_input with
    | some t => some t
    | none => T_sat_at_P
  else if process = "Isochoric" then some (T_input.getD T_original)
  else none

/-- The State 2 calculation pressure fixed by the process constraint
(src/main.py:588-610). -/
def nextStageCalcP (process : String) (P_original : ℚ) (P_sat_at_T : Option ℚ)
    (P_input : Option ℚ) : Option ℚ :=
  if process = "Isothermal" then
    match P_input with
    | some p => some p
    | none => P_sat_at_T
  else if process = "Isobaric" then some P_original
  else if process = "Isochoric" then some (P_input.getD P_original)
  else none

/-- The State 2 quality adjustment against the fixed-side saturation value
(src/main.py:612-639), before the final clamp. -/
def nextStageAdjX (table : List Row) (process : String) (cT cP : Option ℚ)
    (x_input : Option ℚ) : ℚ :=
  let cx0 : ℚ := x_input.getD (1/2)
  if process = "Isobaric" then
    match cT with
    | some t =>
      match (get_tsat table (cP.getD 0)).1 with
      | some tsatF =>
          if tsatF = 0 then cx0
          else if tsatF < t then 1
          else if t < tsatF then 0
          else x_input.getD (1/2)
      | none => cx0
    | none => cx0
  else if process = "Isothermal" then
    match cP with
    | some p =>
      match (get_psat table (cT.getD 0)).1 with
      | some psatF =>
          if psatF = 0 then cx0
          else if p < psatF then 1
          else if psatF < p then 0
          else x_input.getD (1/2)
      | none => cx0
    | none => cx0
  else cx0

/-- `submit_next_stage` for water (src/main.py:544-691): apply the process
constraint, adjust the quality from the saturation comparison, clamp it to
[0, 1], resolve State 2 and override the display temperature and pressure.
The returned record is the one stored in
`gas_data_store["state2_submission"]`.  `T_original`/`P_original` are the
exact user inputs held in State 1. -/
def submit_next_stage_water (avail : Bool) (lib : IapwsLib) (table : List Row)
    (T_original P_original : ℚ) (process : String)
    (P_input T_input x_input : Option ℚ) : Except String WaterRecord :=
  let T_sat_at_P := (get_tsat table P_original).1
  let P_sat_at_T := (get_psat table T_original).1
  let cT := nextStageCalcT process T_original T_sat_at_P T_input
  let cP := nextStageCalcP process P_original P_sat_at_T P_input
  let display_T : Option ℚ :=
    if process = "Isothermal" then some T_original
    else if process = "Isobaric" then T_sat_at_P
    else if process = "Isochoric" then cT
    else none
  let display_P : Option ℚ :=
    if process = "Isothermal" then P_sat_at_T
    else if process = "Isobaric" then some P_original
    else if process = "Isochoric" then cP
    else none
  let cx : ℚ := max 0 (min 1 (nextStageAdjX table process cT cP x_input))
  match calculate_water_properties avail lib table (cT.getD T_original)
      (cP.getD P_original) cx with
  | .error e => .error e
  | .ok props =>
    .ok (if process = "Isothermal" then
          { props with T := (display_T.getD props.T), P := (display_P.getD props.P) }
        else if process = "Isobaric" then
          { props with P := (display_P.getD props.P), T := (display_T.getD props.T) }
        else props)

/-- The process quantities computed by `get_water_results`
(src/main.py:1052-1073), before display rounding. -/
structure WaterProcOut where
  W : ℚ
  Q : ℚ
  delta_u : ℚ
  delta_h : ℚ
  delta_s : ℚ
deriving DecidableEq

/-- The computation core of `get_water_results` (src/main.py:1052-1073):
property deltas, the per-kind empirical work formula (pressure converted from
bar to kPa by the factor 100), and first-law heat. -/
def get_water_results_core (process_type : String)
    (P1 v1 u1 h1 s1 P2 v2 u2 h2 s2 : ℚ) : WaterProcOut :=
  let delta_u := u2 - u1
  let delta_h := h2 - h1
  let delta_s := s2 - s1
  let W : ℚ :=
    if process_type = "Constant Pressure" then P1 * 100 * (v2 - v1)
    else if process_type = "Constant Volume" then 0
    else if process_type = "Isothermal" then (P1 + P2) / 2 * 100 * (v2 - v1)
    else if process_type = "Adiabatic" then -delta_u
    else 0
  { W := W, Q := delta_u + W, delta_u := delta_u, delta_h := delta_h,
    delta_s := delta_s }

/-- The ideal-gas process kinds of `PROCESS_MAP` (src/main.py:808). -/
inductive IdealProcess where
  | isochoric
  | isobaric
  | isothermal
  | adiabatic
  | polytropic
deriving DecidableEq

/-- The quantities computed by the ideal-gas branch of `get_results`
(src/main.py:860-909), before display rounding. -/
structure IdealResults where
  v2 : ℝ
  P2 : ℝ
  T2 : ℝ
  u1 : ℝ
  u2 : ℝ
  h1 : ℝ
  h2 : ℝ
  delta_u : ℝ
  delta_h : ℝ
  W : ℝ
  Q : ℝ
  delta_s : ℝ
  s1 : ℝ
  s2 : ℝ

/-- `np.isclose(a, b)` with the numpy defaults rtol=1e-5, atol=1e-8. -/
def np_isclose (a b : ℝ) : Prop := |a - b| ≤ 1e-8 + 1e-5 * |b|

open Classical in
/-- The ideal-gas computation of `get_results` (src/main.py:860-909).
Real exponentiation models the float `**`; `rv` is the stored volume ratio
input and `rp` the pressure ratio input.  The source assigns `np.inf` to the
exponent for the isochoric case; the exponent is never read on that path, so
it is modelled as 0 here. -/
noncomputable def get_results_ideal (pt : IdealProcess)
    (cp cv R k T1 P1 v1 rv rp : ℝ) (n : Option ℝ) : IdealResults :=
  let v2 := v1 * rv
  let step : ℝ × ℝ × ℝ × ℝ :=
    match pt with
    | .isothermal => (v2, P1 * (v1 / v2), T1, 1)
    | .polytropic =>
        let e := n.getD 1
        (v2, P1 * (v1 / v2) ^ e, T1 * (v1 / v2) ^ (e - 1), e)
    | .adiabatic => (v2, P1 * (v1 / v2) ^ k, T1 * (v1 / v2) ^ (k - 1), k)
    | .isochoric => (v1, P1 * rp, T1 * rp, 0)
    | .isobaric => (v2, P1, T1 * rv, 0)
  let v2 := step.1
  let P2 := step.2.1
  let T2 := step.2.2.1
  let exponent := step.2.2.2
  let u1 := cv * T1
  let u2 := cv * T2
  let h1 := cp * T1
  let h2 := cp * T2
  let delta_u := u2 - u1
  let delta_h := h2 - h1
  let W : ℝ :=
    match pt with
    | .isochoric => 0
    | .isobaric => P1 * (v2 - v1)
    | .isothermal => R * T1 * Real.log (v2 / v1)
    | .polytropic | .adiabatic =>
        if np_isclose exponent 1 then R * T1 * Real.log (v2 / v1)
        else (P2 * v2 - P1 * v1) / (1 - exponent)
  let Q := delta_u + W
  let delta_s := cp * Real.log (T2 / T1) - R * Real.log (P2 / P1)
  let s1 := cp * Real.log T1 - R * Real.log P1
  { v2 := v2, P2 := P2, T2 := T2, u1 := u1, u2 := u2, h1 := h1, h2 := h2,
    delta_u := delta_u, delta_h := delta_h, W := W, Q := Q,
    delta_s := delta_s, s1 := s1, s2 := s1 + delta_s }

/-- Rows of a concrete strictly monotone three-row saturation table used for
the concrete counterexamples and witnesses below. -/
def row50 : Row :=
  { T_sat := 50, P_bar := 1, vf := 0.001, vg := 12, uf := 200, ug := 2400,
    hf := 200, hfg := 2400, sf := 0.7, sg := 8 }

/-- The 100-degree row of the sample table. -/
def row100 : Row :=
  { T_sat := 100, P_bar := 2, vf := 0.002, vg := 1.6, uf := 400, ug := 2500,
    hf := 420, hfg := 2250, sf := 1.3, sg := 7.35 }

/-- The 150-degree row of the sample table. -/
def row150 : Row :=
  { T_sat := 150, P_bar := 4, vf := 0.003, vg := 0.4, uf := 630, ug := 2560,
    hf := 632, hfg := 2110, sf := 1.8, sg := 6.8 }

/-- The three-row sample saturation table. -/
def sampleTable : List Row := [row50, row100, row150]

/-- A library stub every call of which raises (used when the IAPWS branch is
not exercised, and to model a failing library). -/
def trivLib : IapwsLib := { byTx := fun _ _ => none, byTP := fun _ _ => none }

/-! ### Helper lemmas -/

theorem except_bind_ok {α β : Type} {e : Except String α} {f : α → Except String β} {w : β}
    (h : (e >>= f) = .ok w) : ∃ a, e = .ok a ∧ f a = .ok w := by
  cases e with
  | error s => exact Except.noConfusion h
  | ok a => exact ⟨a, rfl, h⟩

theorem ok_bind {α β : Type} (a : α) (f : α → Except String β) :
    ((Except.ok a : Except String α) >>= f) = f a := rfl

theorem foldl_min_le_init (f : Row → ℚ) :
    ∀ (t : List Row) (a : ℚ), t.foldl (fun m r => min m (f r)) a ≤ a := by
  intro t
  induction t with
  | nil => intro a; exact le_refl a
  | cons b t ih =>
      intro a
      exact le_trans (ih (min a (f b))) (min_le_left _ _)

theorem foldl_min_le_mem (f : Row → ℚ) :
    ∀ (t : List Row) (a : ℚ) (r : Row), r ∈ t → t.foldl (fun m r => min m (f r)) a ≤ f r := by
  intro t
  induction t with
  | nil => intro a r hr; exact absurd hr (List.not_mem_nil r)
  | cons b t ih =>
      intro a r hr
      rcases List.mem_cons.1 hr with h | h
      · subst h
        exact le_trans (foldl_min_le_init f t _) (min_le_right _ _)
      · exact ih _ r h

theorem foldl_min_att (f : Row → ℚ) :
    ∀ (t : List Row) (a : ℚ),
      t.foldl (fun m r => min m (f r)) a = a ∨
        ∃ r ∈ t, t.foldl (fun m r => min m (f r)) a = f r := by
  intro t
  induction t with
  | nil => intro a; exact Or.inl rfl
  | cons b t ih =>
      intro a
      rcases ih (min a (f b)) with h | ⟨r, hr, h⟩
      · rcases min_cases a (f b) with ⟨hm, _⟩ | ⟨hm, _⟩
        · exact Or.inl (by rw [List.foldl_cons, h, hm])
        · exact Or.inr ⟨b, List.mem_cons_self b t, by rw [List.foldl_cons, h, hm]⟩
      · exact Or.inr ⟨r, List.mem_cons_of_mem b hr, by rw [List.foldl_cons, h]⟩

theorem foldl_max_init_le (f : Row → ℚ) :
    ∀ (t : List Row) (a : ℚ), a ≤ t.foldl (fun m r => max m (f r)) a := by
  intro t
  induction t with
  | nil => intro a; exact le_refl a
  | cons b t ih =>
      intro a
      exact le_trans (le_max_left a (f b)) (ih (max a (f b)))

theorem foldl_max_mem_le (f : Row → ℚ) :
    ∀ (t : List Row) (a : ℚ) (r : Row), r ∈ t → f r ≤ t.foldl (fun m r => max m (f r)) a := by
  intro t
  induction t with
  | nil => intro a r hr; exact absurd hr (List.not_mem_nil r)
  | cons b t ih =>
      intro a r hr
      rcases List.mem_cons.1 hr with h | h
      · subst h
        exact le_trans (le_max_right a (f r)) (foldl_max_init_le f t _)
      · exact ih _ r h

theorem foldl_max_att (f : Row → ℚ) :
    ∀ (t : List Row) (a : ℚ),
      t.foldl (fun m r => max m (f r)) a = a ∨
        ∃ r ∈ t, t.foldl (fun m r => max m (f r)) a = f r := by
  intro t
  induction t with
  | nil => intro a; exact Or.inl rfl
  | cons b t ih =>
      intro a
      rcases ih (max a (f b)) with h | ⟨r, hr, h⟩
      · rcases max_cases a (f b) with ⟨hm, _⟩ | ⟨hm, _⟩
        · exact Or.inl (by rw [List.foldl_cons, h, hm])
        · exact Or.inr ⟨b, List.mem_cons_self b t, by rw [List.foldl_cons, h, hm]⟩
      · exact Or.inr ⟨r, List.mem_cons_of_mem b hr, by rw [List.foldl_cons, h]⟩

theorem colMin_le {l : List Row} {f : Row → ℚ} {r : Row} (hr : r ∈ l) : colMin l f ≤ f r := by
  cases l with
  | nil => exact absurd hr (List.not_mem_nil r)
  | cons a t =>
      rcases List.mem_cons.1 hr with h | h
      · subst h; exact foldl_min_le_init f t (f r)
      · exact foldl_min_le_mem f t (f a) r h

theorem colMin_mem {l : List Row} (f : Row → ℚ) (hne : l ≠ []) :
    ∃ r ∈ l, f r = colMin l f := by
  cases l with
  | nil => exact absurd rfl hne
  | cons a t =>
      rcases foldl_min_att f t (f a) with h | ⟨r, hr, h⟩
      · exact ⟨a, List.mem_cons_self a t, h.symm⟩
      · exact ⟨r, List.mem_cons_of_mem a hr, h.symm⟩

theorem le_colMax {l : List Row} {f : Row → ℚ} {r : Row} (hr : r ∈ l) : f r ≤ colMax l f := by
  cases l with
  | nil => exact absurd hr (List.not_mem_nil r)
  | cons a t =>
      rcases List.mem_cons.1 hr with h | h
      · subst h; exact foldl_max_init_le f t (f r)
      · exact foldl_max_mem_le f t (f a) r h

theorem colMax_mem {l : List Row} (f : Row → ℚ) (hne : l ≠ []) :
    ∃ r ∈ l, f r = colMax l f := by
  cases l with
  | nil => exact absurd rfl hne
  | cons a t =>
      rcases foldl_max_att f t (f a) with h | ⟨r, hr, h⟩
      · exact ⟨a, List.mem_cons_self a t, h.symm⟩
      · exact ⟨r, List.mem_cons_of_mem a hr, h.symm⟩

theorem colMin_le_colMax {l : List Row} (f : Row → ℚ) (hne : l ≠ []) :
    colMin l f ≤ colMax l f := by
  obtain ⟨r, hr, h⟩ := colMin_mem f hne
  exact h ▸ le_colMax hr

theorem getLast?_of_ne_nil {α : Type} {l : List α} (hne : l ≠ []) :
    ∃ a, l.getLast? = some a := by
  cases l with
  | nil => exact absurd rfl hne
  | cons a t => exact ⟨(a :: t).getLast (by simp), List.getLast?_eq_getLast _ _⟩

theorem bracketLow_some {key : Row → ℚ} {l : List Row} {q : ℚ} (hne : l ≠ [])
    (h : colMin l key ≤ q) : ∃ lo, bracketLow key l q = some lo := by
  obtain ⟨r, hr, hrq⟩ := colMin_mem key hne
  have hmem : r ∈ l.filter fun r => decide (key r ≤ q) :=
    List.mem_filter.2 ⟨hr, decide_eq_true (hrq ▸ h)⟩
  exact getLast?_of_ne_nil (List.ne_nil_of_mem hmem)

theorem bracketHigh_some {key : Row → ℚ} {l : List Row} {q : ℚ} (hne : l ≠ [])
    (h : q ≤ colMax l key) : ∃ hi, bracketHigh key l q = some hi := by
  obtain ⟨r, hr, hrq⟩ := colMax_mem key hne
  have hmem : r ∈ l.filter fun r => decide (q ≤ key r) :=
    List.mem_filter.2 ⟨hr, decide_eq_true (hrq ▸ h)⟩
  cases hfil : l.filter fun r => decide (q ≤ key r) with
  | nil => exact absurd (hfil ▸ hmem) (List.not_mem_nil r)
  | cons a t => exact ⟨a, by rw [bracketHigh, hfil]; rfl⟩

theorem clampTo_lb {lo hi q : ℚ} (h : lo ≤ hi) : lo ≤ clampTo lo hi q := by
  unfold clampTo
  split
  · exact le_refl lo
  split
  · exact h
  · exact le_of_not_lt (by assumption)

theorem clampTo_ub {lo hi q : ℚ} (h : lo ≤ hi) : clampTo lo hi q ≤ hi := by
  unfold clampTo
  split
  · exact h
  split
  · exact le_refl hi
  · exact le_of_not_lt (by assumption)

theorem clampTo_of_mem {lo hi q : ℚ} (h1 : lo ≤ q) (h2 : q ≤ hi) : clampTo lo hi q = q := by
  unfold clampTo
  rw [if_neg (not_lt.2 h1), if_neg (not_lt.2 h2)]

theorem clampTo_below {lo hi q : ℚ} (h : q < lo) : clampTo lo hi q = lo := by
  unfold clampTo
  rw [if_pos h]

theorem clampTo_above {lo hi q : ℚ} (hlh : lo ≤ hi) (h : hi < q) : clampTo lo hi q = hi := by
  unfold clampTo
  rw [if_neg (not_lt.2 (le_trans hlh (le_of_lt h))), if_pos h]

theorem interp_eq_of_brackets {table : List Row} {T_C : ℚ} {prop : Row → ℚ} {lo hi : Row}
    (hne : table ≠ [])
    (hlo : bracketLow (fun r => r.T_sat) table
      (clampTo (colMin table (fun r => r.T_sat)) (colMax table (fun r => r.T_sat)) T_C) = some lo)
    (hhi : bracketHigh (fun r => r.T_sat) table
      (clampTo (colMin table (fun r => r.T_sat)) (colMax table (fun r => r.T_sat)) T_C) = some hi) :
    interpolate_water_property_by_T table T_C prop =
      .ok (some (linInterp (fun r => r.T_sat) prop lo hi
        (clampTo (colMin table (fun r => r.T_sat)) (colMax table (fun r => r.T_sat)) T_C))) := by
  simp only [interpolate_water_property_by_T, if_neg hne, hlo, hhi]

theorem interp_total {table : List Row} (hne : table ≠ []) (T_C : ℚ) (prop : Row → ℚ) :
    ∃ v, interpolate_water_property_by_T table T_C prop = .ok (some v) := by
  have hmm := colMin_le_colMax (fun r => r.T_sat) hne
  obtain ⟨lo, hlo⟩ := @bracketLow_some (fun r => r.T_sat) table _ hne (clampTo_lb hmm)
  obtain ⟨hi, hhi⟩ := @bracketHigh_some (fun r => r.T_sat) table _ hne (clampTo_ub hmm)
  exact ⟨_, interp_eq_of_brackets hne hlo hhi⟩

theorem interp_clamp_below {table : List Row} (hne : table ≠ []) {T_C : ℚ} (prop : Row → ℚ)
    (h : T_C < colMin table (fun r => r.T_sat)) :
    interpolate_water_property_by_T table T_C prop =
      interpolate_water_property_by_T table (colMin table (fun r => r.T_sat)) prop := by
  have hmm := colMin_le_colMax (fun r => r.T_sat) hne
  simp only [interpolate_water_property_by_T, if_neg hne, clampTo_below h,
    clampTo_of_mem (le_refl _) hmm]

theorem interp_clamp_above {table : List Row} (hne : table ≠ []) {T_C : ℚ} (prop : Row → ℚ)
    (h : colMax table (fun r => r.T_sat) < T_C) :
    interpolate_water_property_by_T table T_C prop =
      interpolate_water_property_by_T table (colMax table (fun r => r.T_sat)) prop := by
  have hmm := colMin_le_colMax (fun r => r.T_sat) hne
  simp only [interpolate_water_property_by_T, if_neg hne, clampTo_above hmm h,
    clampTo_of_mem hmm (le_refl _)]

theorem reqProp_total {table : List Row} (hne : table ≠ []) (T_C : ℚ) (prop : Row → ℚ) :
    ∃ v, reqProp table T_C prop = .ok v := by
  obtain ⟨v, hv⟩ := interp_total hne T_C prop
  exact ⟨v, by rw [reqProp, hv]⟩

theorem csv_fallback_eq {table : List Row} {T_C : ℚ} (P_bar x : ℚ)
    {vf vg uf ug hf hfg sf sg ps : ℚ}
    (h1 : reqProp table T_C (fun r => r.vf) = .ok vf)
    (h2 : reqProp table T_C (fun r => r.vg) = .ok vg)
    (h3 : reqProp table T_C (fun r => r.uf) = .ok uf)
    (h4 : reqProp table T_C (fun r => r.ug) = .ok ug)
    (h5 : reqProp table T_C (fun r => r.hf) = .ok hf)
    (h6 : reqProp table T_C (fun r => r.hfg) = .ok hfg)
    (h7 : reqProp table T_C (fun r => r.sf) = .ok sf)
    (h8 : reqProp table T_C (fun r => r.sg) = .ok sg)
    (h9 : reqProp table T_C (fun r => r.P_bar) = .ok ps) :
    csv_fallback table T_C P_bar x =
      .ok { T := T_C, P := if 0 ≤ x ∧ x ≤ 1 then ps else P_bar, P_sat := ps, x := x,
            v := vf + x * (vg - vf), u := uf + x * (ug - uf), h := hf + x * hfg,
            s := sf + x * (sg - sf),
            vf := vf, vg := vg, uf := uf, ug := ug, hf := hf, hfg := hfg,
            sf := sf, sg := sg, source := "CSV Interpolation" } := by
  simp only [csv_fallback, h1, h2, h3, h4, h5, h6, h7, h8, h9, ok_bind]

theorem csv_fallback_ok {table : List Row} {T_C P_bar x : ℚ} {wp : WaterRecord}
    (h : csv_fallback table T_C P_bar x = .ok wp) :
    wp.source = "CSV Interpolation" ∧ wp.x = x ∧ wp.T = T_C ∧
      ∃ ps, reqProp table T_C (fun r => r.P_bar) = .ok ps ∧ wp.P_sat = ps ∧
        wp.P = if 0 ≤ x ∧ x ≤ 1 then ps else P_bar := by
  unfold csv_fallback at h
  obtain ⟨vf, e1, h⟩ := except_bind_ok h
  obtain ⟨vg, e2, h⟩ := except_bind_ok h
  obtain ⟨uf, e3, h⟩ := except_bind_ok h
  obtain ⟨ug, e4, h⟩ := except_bind_ok h
  obtain ⟨hf, e5, h⟩ := except_bind_ok h
  obtain ⟨hfg, e6, h⟩ := except_bind_ok h
  obtain ⟨sf, e7, h⟩ := except_bind_ok h
  obtain ⟨sg, e8, h⟩ := except_bind_ok h
  obtain ⟨ps, e9, h⟩ := except_bind_ok h
  cases h
  exact ⟨rfl, rfl, rfl, ps, e9, rfl, rfl⟩

theorem calculate_avail_false (lib : IapwsLib) (table : List Row) (T_C P_bar x : ℚ) :
    calculate_water_properties false lib table T_C P_bar x = csv_fallback table T_C P_bar x := rfl

theorem iapws_some_fields {avail : Bool} {lib : IapwsLib} {T_C P_bar x : ℚ} {r0 : WaterRecord}
    (h : calculate_water_properties_iapws avail lib T_C P_bar x = some r0) :
    r0.source = "IAPWS-IF97" ∧ r0.P = P_bar ∧ r0.T = T_C := by
  unfold calculate_water_properties_iapws at h
  cases avail with
  | false => exact Option.noConfusion h
  | true =>
      simp only [Bool.not_true, Bool.false_eq_true, if_false] at h
      split at h
      · exact Option.noConfusion h
      · split at h
        all_goals
          cases h
          exact ⟨rfl, rfl, rfl⟩

theorem calculate_ok_cases {avail : Bool} {lib : IapwsLib} {table : List Row}
    {T_C P_bar x : ℚ} {wp : WaterRecord}
    (h : calculate_water_properties avail lib table T_C P_bar x = .ok wp) :
    (avail = true
      ∧ (pyGtGuard (get_tsat table P_bar).1 T_C = true ∨
          pyLtGuard (get_tsat table P_bar).1 T_C = true)
      ∧ wp.source = "IAPWS-IF97" ∧ wp.P = P_bar ∧ wp.T = T_C
      ∧ wp.x = (if pyGtGuard (get_tsat table P_bar).1 T_C = true then 1 else 0))
    ∨ csv_fallback table T_C P_bar x = .ok wp := by
  unfold calculate_water_properties at h
  by_cases hb : (avail && (pyGtGuard (get_tsat table P_bar).1 T_C ||
      pyLtGuard (get_tsat table P_bar).1 T_C)) = true
  · rw [if_pos hb] at h
    rcases Bool.and_eq_true_iff.1 hb with ⟨ha, hor⟩
    cases hiap : calculate_water_properties_iapws avail lib T_C P_bar x with
    | none => rw [hiap] at h; exact Or.inr h
    | some r0 =>
        rw [hiap] at h
        obtain ⟨hsrc, hP, hT⟩ := iapws_some_fields hiap
        cases h
        refine Or.inl ⟨ha, Bool.or_eq_true_iff.1 hor, hsrc, hP, hT, ?_⟩
        rcases Bool.or_eq_true_iff.1 hor with hgt | hlt
        · rw [if_pos hgt, hgt, if_pos rfl]
        · by_cases hgt : pyGtGuard (get_tsat table P_bar).1 T_C = true
          · rw [if_pos hgt, hgt, if_pos rfl]
          · rw [if_neg hgt, Bool.not_eq_true] at *
            rw [hgt, hlt]
            simp
  · rw [if_neg hb] at h
    exact Or.inr h

theorem pyLtGuard_some_ne {t T : ℚ} (ht : t ≠ 0) :
    pyLtGuard (some t) T = decide (T < t) := by
  simp [pyLtGuard, ht]

theorem pyGtGuard_some_ne {t T : ℚ} (ht : t ≠ 0) :
    pyGtGuard (some t) T = decide (t < T) := by
  simp [pyGtGuard, ht]

/-- C1 (amended): in `submit_gas` the phase tag is decided by the input
quality jointly with the temperature comparison, subcooled checks first
(`x = 0` or `T < T_sat_at_P`), then superheated (`x = 1` or
`T > T_sat_at_P`), then two-phase for `0 < x < 1`, else saturated; the
displayed quality is forced to 1/0 only on the successful high-accuracy
path, while the table path reports the input quality unchanged.  In
particular, for input quality strictly between 0 and 1 the claimed boundary
behaviour holds, and at `T = T_sat_at_P` the quality is the input value. -/
theorem claim1_theorem (avail : Bool) (lib : IapwsLib) (table : List Row)
    (T_input P_input x tv : ℚ) (r : StoredWater)
    (htsat : (get_tsat table P_input).1 = some tv) (htv : tv ≠ 0)
    (hok : submit_gas_water avail lib table T_input P_input x = .ok r) :
    ((x = 0 ∨ T_input < tv) → r.phase = "subcooled_liquid")
  ∧ (¬(x = 0 ∨ T_input < tv) → (x = 1 ∨ tv < T_input) →
      r.phase = "superheated_vapor")
  ∧ (¬(x = 0 ∨ T_input < tv) → ¬(x = 1 ∨ tv < T_input) →
      r.phase = if 0 < x ∧ x < 1 then "two_phase" else "saturated")
  ∧ (r.source = "IAPWS-IF97" → r.x = (if tv < T_input then 1 else 0))
  ∧ (r.source = "CSV Interpolation" → r.x = x)
  ∧ (T_input = tv → r.x = x)
  ∧ (avail = false → r.source = "CSV Interpolation") := by
  have hlt : pyLtGuard (get_tsat table P_input).1 T_input = decide (T_input < tv) := by
    rw [htsat]; exact pyLtGuard_some_ne htv
  have hgt : pyGtGuard (get_tsat table P_input).1 T_input = decide (tv < T_input) := by
    rw [htsat]; exact pyGtGuard_some_ne htv
  unfold submit_gas_water at hok
  cases hcalc : calculate_water_properties avail lib table T_input P_input x with
  | error e => rw [hcalc] at hok; exact Except.noConfusion hok
  | ok wp =>
      rw [hcalc] at hok
      cases hok
      simp only [hlt, hgt, decide_eq_true_eq]
      refine ⟨?_, ?_, ?_, ?_, ?_, ?_, ?_⟩
      · intro h
        rw [if_pos h]
      · intro h1 h2
        rw [if_neg h1, if_pos h2]
      · intro h1 h2
        rw [if_neg h1, if_neg h2]
      · intro hsrc
        rcases calculate_ok_cases hcalc with ⟨_, _, _, _, _, hx⟩ | hcsv
        · rw [hx, hgt]
          by_cases hc : tv < T_input
          · rw [if_pos (decide_eq_true hc), if_pos hc]
          · rw [if_neg ?_, if_neg hc]
            rw [decide_eq_true_eq]
            exact hc
        · obtain ⟨hs, _, _, _⟩ := csv_fallback_ok hcsv
          rw [hs] at hsrc
          exact absurd hsrc (by decide)
      · intro hsrc
        rcases calculate_ok_cases hcalc with ⟨_, _, hs, _, _, _⟩ | hcsv
        · rw [hs] at hsrc
          exact absurd hsrc (by decide)
        · exact (csv_fallback_ok hcsv).2.1
      · intro hT
        rcases calculate_ok_cases hcalc with ⟨_, hor, _, _, _, _⟩ | hcsv
        · rw [hgt, hlt, hT] at hor
          rcases hor with hc | hc <;> simp at hc
        · exact (csv_fallback_ok hcsv).2.1
      · intro ha
        subst ha
        rw [calculate_avail_false] at hcalc
        exact (csv_fallback_ok hcalc).1

/-- C1 counterexample: with the pressure fixed so that the saturation
temperature is 100, resolving at the strictly superheated temperature 110
with input quality 0 is tagged subcooled_liquid, not superheated_vapor: the
quality check `x == 0` precedes the temperature comparison. -/
theorem claim1_counterexample :
    (get_tsat sampleTable 2).1 = some 100 ∧ (100 : ℚ) < 110 ∧
      ∃ r, submit_gas_water false trivLib sampleTable 110 2 0 = .ok r ∧
        r.phase = "subcooled_liquid" ∧ r.phase ≠ "superheated_vapor" := by
  refine ⟨?_, by norm_num, ⟨_, rfl, rfl, by decide⟩⟩
  have h : get_tsat sampleTable 2 = (some (roundDp 5 100), false) := rfl
  rw [h]
  norm_num [roundDp, rhe]

/-- C1 witness: at quality 1/2 strictly between 0 and 1, a temperature above
the saturation temperature is tagged superheated_vapor and the table path
reports the input quality unchanged. -/
theorem claim1_witness :
    ∃ r, submit_gas_water false trivLib sampleTable 110 2 (1/2) = .ok r ∧
      r.phase = "superheated_vapor" ∧ r.x = 1/2 := by
  have htsat : (get_tsat sampleTable 2).1 = some 100 := by
    have h : get_tsat sampleTable 2 = (some (roundDp 5 100), false) := rfl
    rw [h]
    norm_num [roundDp, rhe]
  obtain ⟨r, hr⟩ : ∃ r, submit_gas_water false trivLib sampleTable 110 2 (1/2) = .ok r :=
    ⟨_, rfl⟩
  have hmain := claim1_theorem false trivLib sampleTable 110 2 (1/2) 100 r htsat
    (by norm_num) hr
  refine ⟨r, hr, ?_, ?_⟩
  · exact hmain.2.1 (by norm_num) (Or.inr (by norm_num))
  · exact hmain.2.2.2.2.1 (hmain.2.2.2.2.2.2 rfl)

theorem interp110 (prop : Row → ℚ) :
    interpolate_water_property_by_T sampleTable 110 prop =
      .ok (some (prop row100 + (prop row150 - prop row100) * (1/5))) := by
  have h : interpolate_water_property_by_T sampleTable 110 prop =
      .ok (some (linInterp (fun r => r.T_sat) prop row100 row150 110)) := rfl
  rw [h, linInterp]
  rw [if_neg (by norm_num [row100, row150])]
  norm_num [row100, row150]
  ring

theorem reqProp110 (prop : Row → ℚ) :
    reqProp sampleTable 110 prop =
      .ok (prop row100 + (prop row150 - prop row100) * (1/5)) := by
  rw [reqProp, interp110]

theorem reqProp100 (prop : Row → ℚ) :
    reqProp sampleTable 100 prop = .ok (prop row100) := rfl

/-- C4 (amended): the reported pressure is the table saturation pressure at
`T` whenever the record comes from the table-interpolation path with input
quality in [0, 1] — even when `T` makes the state single-phase — and it is
the user's input pressure when the high-accuracy path produced the record or
when the table path ran with a quality outside [0, 1]: the branch tests the
quality, not the phase. -/
theorem claim4_theorem (avail : Bool) (lib : IapwsLib) (table : List Row)
    (T_C P_bar x : ℚ) (wp : WaterRecord)
    (h : calculate_water_properties avail lib table T_C P_bar x = .ok wp) :
    (wp.source = "CSV Interpolation" →
        (0 ≤ x ∧ x ≤ 1 →
          wp.P = wp.P_sat ∧ reqProp table T_C (fun r => r.P_bar) = .ok wp.P_sat)
      ∧ (¬(0 ≤ x ∧ x ≤ 1) → wp.P = P_bar))
  ∧ (wp.source = "IAPWS-IF97" → wp.P = P_bar) := by
  rcases calculate_ok_cases h with ⟨_, _, hsrc, hP, _, _⟩ | hcsv
  · refine ⟨fun hs => absurd (hs ▸ hsrc) (by decide), fun _ => hP⟩
  · obtain ⟨hsrc, _, _, ps, hps, hpsat, hP⟩ := csv_fallback_ok hcsv
    refine ⟨fun _ => ⟨?_, ?_⟩, fun hs => absurd (hs ▸ hsrc) (by decide)⟩
    · intro hx
      rw [hP, if_pos hx, hpsat]
      exact ⟨rfl, hps⟩
    · intro hx
      rw [hP, if_neg hx]

/-- C4 counterexample: with the high-accuracy source unavailable, resolving
the strictly superheated state T=110 (saturation temperature 100 at the
input pressure 2) with quality 1/2 reports the table saturation pressure
12/5 at T, not the user's input pressure 2 — the reported pressure follows
the quality test, not the single-phase classification. -/
theorem claim4_counterexample :
    (get_tsat sampleTable 2).1 = some 100 ∧ (100 : ℚ) < 110 ∧
      ∃ wp, calculate_water_properties false trivLib sampleTable 110 2 (1/2) = .ok wp ∧
        wp.P = 12/5 ∧ wp.P ≠ 2 := by
  refine ⟨?_, by norm_num, ?_⟩
  · have h : get_tsat sampleTable 2 = (some (roundDp 5 100), false) := rfl
    rw [h]
    norm_num [roundDp, rhe]
  · have hcsv := csv_fallback_eq 2 (1/2)
      (reqProp110 (fun r => r.vf)) (reqProp110 (fun r => r.vg))
      (reqProp110 (fun r => r.uf)) (reqProp110 (fun r => r.ug))
      (reqProp110 (fun r => r.hf)) (reqProp110 (fun r => r.hfg))
      (reqProp110 (fun r => r.sf)) (reqProp110 (fun r => r.sg))
      (reqProp110 (fun r => r.P_bar))
    rw [calculate_avail_false, hcsv]
    refine ⟨_, rfl, ?_, ?_⟩ <;> norm_num [row100, row150]

/-- C4 witness: a two-phase state at the saturation temperature reports the
table saturation pressure. -/
theorem claim4_witness :
    ∃ wp, calculate_water_properties false trivLib sampleTable 100 2 (1/2) = .ok wp ∧
      wp.P = wp.P_sat ∧ wp.P_sat = 2 := by
  obtain ⟨wp, hwp⟩ :
      ∃ wp, calculate_water_properties false trivLib sampleTable 100 2 (1/2) = .ok wp :=
    ⟨_, rfl⟩
  have hmain := claim4_theorem false trivLib sampleTable 100 2 (1/2) wp hwp
  have hsrc : wp.source = "CSV Interpolation" := by
    rw [calculate_avail_false] at hwp
    exact (csv_fallback_ok hwp).1
  obtain ⟨hPeq, hps⟩ := (hmain.1 hsrc).1 (by norm_num)
  refine ⟨wp, hwp, hPeq, ?_⟩
  rw [reqProp100] at hps
  have := Except.ok.inj hps
  rw [← this, row100]

theorem pyGtGuard_true {o : Option ℚ} {T : ℚ} (h : pyGtGuard o T = true) :
    ∃ t, o = some t ∧ t ≠ 0 ∧ t < T := by
  cases o with
  | none => simp [pyGtGuard] at h
  | some t =>
      by_cases ht : t = 0
      · simp [pyGtGuard, ht] at h
      · refine ⟨t, rfl, ht, ?_⟩
        simpa [pyGtGuard, ht] using h

theorem pyLtGuard_true {o : Option ℚ} {T : ℚ} (h : pyLtGuard o T = true) :
    ∃ t, o = some t ∧ t ≠ 0 ∧ T < t := by
  cases o with
  | none => simp [pyLtGuard] at h
  | some t =>
      by_cases ht : t = 0
      · simp [pyLtGuard, ht] at h
      · refine ⟨t, rfl, ht, ?_⟩
        simpa [pyLtGuard, ht] using h

/-- C5: the high-accuracy source can produce the resulting record only when
it is available and the state is strictly superheated or strictly subcooled
against the (truthy) saturation temperature at the given pressure; at
exactly the saturation temperature the record always comes from the
table-interpolation path, available or not. -/
theorem claim5_theorem (avail : Bool) (lib : IapwsLib) (table : List Row)
    (T_C P_bar x : ℚ) (wp : WaterRecord)
    (h : calculate_water_properties avail lib table T_C P_bar x = .ok wp) :
    (wp.source = "IAPWS-IF97" →
      avail = true ∧ ∃ tv, (get_tsat table P_bar).1 = some tv ∧ tv ≠ 0 ∧
        (tv < T_C ∨ T_C < tv))
  ∧ (∀ tv, (get_tsat table P_bar).1 = some tv → T_C = tv →
      wp.source = "CSV Interpolation") := by
  rcases calculate_ok_cases h with ⟨ha, hor, hsrc, _, _, _⟩ | hcsv
  · constructor
    · intro _
      refine ⟨ha, ?_⟩
      rcases hor with hg | hl
      · obtain ⟨t, hto, ht0, htT⟩ := pyGtGuard_true hg
        exact ⟨t, hto, ht0, Or.inl htT⟩
      · obtain ⟨t, hto, ht0, htT⟩ := pyLtGuard_true hl
        exact ⟨t, hto, ht0, Or.inr htT⟩
    · intro tv htv hT
      rcases hor with hg | hl
      · obtain ⟨t, hto, _, htT⟩ := pyGtGuard_true hg
        rw [htv] at hto
        cases Option.some.inj hto
        exact absurd htT (by rw [hT]; exact lt_irrefl tv)
      · obtain ⟨t, hto, _, htT⟩ := pyLtGuard_true hl
        rw [htv] at hto
        cases Option.some.inj hto
        exact absurd htT (by rw [hT]; exact lt_irrefl tv)
  · have hsrc := (csv_fallback_ok hcsv).1
    exact ⟨fun hs => absurd (hs ▸ hsrc) (by decide), fun _ _ _ => hsrc⟩

/-- C5 witness: at exactly the saturation temperature the record is
table-sourced. -/
theorem claim5_witness :
    ∃ wp, calculate_water_properties false trivLib sampleTable 100 2 (1/2) = .ok wp ∧
      wp.source = "CSV Interpolation" := by
  obtain ⟨wp, hwp⟩ :
      ∃ wp, calculate_water_properties false trivLib sampleTable 100 2 (1/2) = .ok wp :=
    ⟨_, rfl⟩
  have htsat : (get_tsat sampleTable 2).1 = some 100 := by
    have h : get_tsat sampleTable 2 = (some (roundDp 5 100), false) := rfl
    rw [h]
    norm_num [roundDp, rhe]
  exact ⟨wp, hwp,
    (claim5_theorem false trivLib sampleTable 100 2 (1/2) wp hwp).2 100 htsat rfl⟩

/-- C6: whenever the high-accuracy call fails (returns `None`), the resolver
computes exactly the table-interpolation fallback — the failure is caught,
and for a nonempty table the call still succeeds, with only the `source`
provenance tag recording the downgrade. -/
theorem claim6_theorem (avail : Bool) (lib : IapwsLib) (table : List Row)
    (T_C P_bar x : ℚ)
    (hfail : calculate_water_properties_iapws avail lib T_C P_bar x = none) :
    calculate_water_properties avail lib table T_C P_bar x = csv_fallback table T_C P_bar x
  ∧ (table ≠ [] →
      ∃ r, calculate_water_properties avail lib table T_C P_bar x = .ok r ∧
        r.source = "CSV Interpolation") := by
  have h1 : calculate_water_properties avail lib table T_C P_bar x =
      csv_fallback table T_C P_bar x := by
    unfold calculate_water_properties
    by_cases hb : (avail && (pyGtGuard (get_tsat table P_bar).1 T_C ||
        pyLtGuard (get_tsat table P_bar).1 T_C)) = true
    · rw [if_pos hb, hfail]
    · rw [if_neg hb]
  refine ⟨h1, fun hne => ?_⟩
  obtain ⟨vf, e1⟩ := reqProp_total hne T_C (fun r => r.vf)
  obtain ⟨vg, e2⟩ := reqProp_total hne T_C (fun r => r.vg)
  obtain ⟨uf, e3⟩ := reqProp_total hne T_C (fun r => r.uf)
  obtain ⟨ug, e4⟩ := reqProp_total hne T_C (fun r => r.ug)
  obtain ⟨hf, e5⟩ := reqProp_total hne T_C (fun r => r.hf)
  obtain ⟨hfg, e6⟩ := reqProp_total hne T_C (fun r => r.hfg)
  obtain ⟨sf, e7⟩ := reqProp_total hne T_C (fun r => r.sf)
  obtain ⟨sg, e8⟩ := reqProp_total hne T_C (fun r => r.sg)
  obtain ⟨ps, e9⟩ := reqProp_total hne T_C (fun r => r.P_bar)
  rw [h1, csv_fallback_eq P_bar x e1 e2 e3 e4 e5 e6 e7 e8 e9]
  exact ⟨_, rfl, rfl⟩

/-- C6 witness: with the library stub failing on every call, the resolver at
a strictly superheated input falls back to the table and succeeds. -/
theorem claim6_witness :
    calculate_water_properties true trivLib sampleTable 110 2 (1/2)
        = csv_fallback sampleTable 110 2 (1/2)
    ∧ ∃ r, calculate_water_properties true trivLib sampleTable 110 2 (1/2) = .ok r ∧
        r.source = "CSV Interpolation" := by
  have hfail : calculate_water_properties_iapws true trivLib 110 2 (1/2) = none := by
    norm_num [calculate_water_properties_iapws, trivLib]
  have hmain := claim6_theorem true trivLib sampleTable 110 2 (1/2) hfail
  exact ⟨hmain.1, hmain.2 (by simp [sampleTable])⟩

theorem calculate_ok_x_bounds {avail : Bool} {lib : IapwsLib} {table : List Row}
    {T_C P_bar x : ℚ} {wp : WaterRecord}
    (hx0 : 0 ≤ x) (hx1 : x ≤ 1)
    (h : calculate_water_properties avail lib table T_C P_bar x = .ok wp) :
    0 ≤ wp.x ∧ wp.x ≤ 1 := by
  rcases calculate_ok_cases h with ⟨_, _, _, _, _, hxeq⟩ | hcsv
  · rw [hxeq]
    split <;> norm_num
  · rw [(csv_fallback_ok hcsv).2.1]
    exact ⟨hx0, hx1⟩

/-- C9: the State 2 update path clamps the quality to [0, 1] before calling
the resolver, so every stored State 2 record has quality within [0, 1] no
matter what the user supplied; the State 1 submission path passes the user's
quality through unclamped — on the table path the stored State 1 quality is
exactly the raw input. -/
theorem claim9_theorem :
    (∀ (avail : Bool) (lib : IapwsLib) (table : List Row) (T0 P0 : ℚ)
        (process : String) (Pi0 Ti0 xi0 : Option ℚ) (r : WaterRecord),
        submit_next_stage_water avail lib table T0 P0 process Pi0 Ti0 xi0 = .ok r →
          0 ≤ r.x ∧ r.x ≤ 1)
  ∧ (∀ (lib : IapwsLib) (table : List Row) (T P x : ℚ) (r : StoredWater),
      submit_gas_water false lib table T P x = .ok r → r.x = x) := by
  constructor
  · intro avail lib table T0 P0 process Pi0 Ti0 xi0 r h
    unfold submit_next_stage_water at h
    dsimp only [] at h
    cases hres : calculate_water_properties avail lib table
        ((nextStageCalcT process T0 (get_tsat table P0).1 Ti0).getD T0)
        ((nextStageCalcP process P0 (get_psat table T0).1 Pi0).getD P0)
        (max 0 (min 1 (nextStageAdjX table process
          (nextStageCalcT process T0 (get_tsat table P0).1 Ti0)
          (nextStageCalcP process P0 (get_psat table T0).1 Pi0) xi0))) with
    | error e =>
        rw [hres] at h
        exact Except.noConfusion h
    | ok props =>
        rw [hres] at h
        have hb := calculate_ok_x_bounds (le_max_left 0 _)
          (max_le (by norm_num) (min_le_left 1 _)) hres
        cases h
        split
        · exact hb
        · split
          · exact hb
          · exact hb
  · intro lib table T P x r h
    unfold submit_gas_water at h
    cases hcalc : calculate_water_properties false lib table T P x with
    | error e => rw [hcalc] at h; exact Except.noConfusion h
    | ok wp =>
        rw [hcalc] at h
        cases h
        rw [calculate_avail_false] at hcalc
        exact (csv_fallback_ok hcalc).2.1

/-- C9 witness: a State 2 isochoric update with user quality 5 stores a
record with quality clamped into [0, 1], while a State 1 submission with
quality 2 stores quality 2 unchanged. -/
theorem claim9_witness :
    (∃ r, submit_next_stage_water false trivLib sampleTable 100 1 "Isochoric"
        (some 2) (some 110) (some 5) = .ok r ∧ 0 ≤ r.x ∧ r.x ≤ 1)
  ∧ (∃ r, submit_gas_water false trivLib sampleTable 110 2 2 = .ok r ∧ r.x = 2) := by
  constructor
  · obtain ⟨r, hr⟩ : ∃ r, submit_next_stage_water false trivLib sampleTable 100 1 "Isochoric"
        (some 2) (some 110) (some 5) = .ok r := ⟨_, rfl⟩
    exact ⟨r, hr, claim9_theorem.1 false trivLib sampleTable 100 1 "Isochoric"
      (some 2) (some 110) (some 5) r hr⟩
  · obtain ⟨r, hr⟩ : ∃ r, submit_gas_water false trivLib sampleTable 110 2 2 = .ok r :=
      ⟨_, rfl⟩
    exact ⟨r, hr, claim9_theorem.2 trivLib sampleTable 110 2 2 r hr⟩

/-- C7: a custom gas whose cp and cv violate cp > cv is rejected with the
invalid-parameters error, and the single-slot store is returned unchanged:
validation precedes the store write. -/
theorem claim7_theorem (store : Option StoredGas) (P v cp cv : ℚ) (h : cp ≤ cv) :
    submit_gas_ideal store "custom" P v (some cp) (some cv) =
      (store, .error "Invalid cp/cv for custom gas") := by
  unfold submit_gas_ideal
  rw [if_neg (by simp)]
  dsimp only []
  rw [if_pos h]

/-- C7 witness: cp = cv = 1 is rejected and a populated store slot is left
intact. -/
theorem claim7_witness :
    submit_gas_ideal none "custom" 100 1 (some 1) (some 1) =
      (none, .error "Invalid cp/cv for custom gas") :=
  claim7_theorem none 100 1 1 1 (le_refl 1)

/-- C3: the water process evaluator computes the work by the per-kind
empirical formula — isobaric `W = P1·(v2−v1)` and isothermal
`W = ((P1+P2)/2)·(v2−v1)` with the bar-to-kPa factor 100, isochoric `W = 0`,
adiabatic `W = −Δu` — and `Q = Δu + W` for every process kind. -/
theorem claim3_theorem (pt : String) (P1 v1 u1 h1 s1 P2 v2 u2 h2 s2 : ℚ) :
    (get_water_results_core "Constant Pressure" P1 v1 u1 h1 s1 P2 v2 u2 h2 s2).W
        = P1 * 100 * (v2 - v1)
  ∧ (get_water_results_core "Constant Volume" P1 v1 u1 h1 s1 P2 v2 u2 h2 s2).W = 0
  ∧ (get_water_results_core "Isothermal" P1 v1 u1 h1 s1 P2 v2 u2 h2 s2).W
        = (P1 + P2) / 2 * 100 * (v2 - v1)
  ∧ (get_water_results_core "Adiabatic" P1 v1 u1 h1 s1 P2 v2 u2 h2 s2).W = -(u2 - u1)
  ∧ (get_water_results_core pt P1 v1 u1 h1 s1 P2 v2 u2 h2 s2).Q
        = (u2 - u1) + (get_water_results_core pt P1 v1 u1 h1 s1 P2 v2 u2 h2 s2).W
  ∧ (get_water_results_core pt P1 v1 u1 h1 s1 P2 v2 u2 h2 s2).delta_u = u2 - u1 := by
  refine ⟨rfl, rfl, rfl, rfl, rfl, rfl⟩

theorem get_results_adiabatic_v2 (cp cv R k T1 P1 v1 rv rp : ℝ) (n : Option ℝ) :
    (get_results_ideal .adiabatic cp cv R k T1 P1 v1 rv rp n).v2 = v1 * rv := by
  simp only [get_results_ideal]

theorem get_results_adiabatic_P2 (cp cv R k T1 P1 v1 rv rp : ℝ) (n : Option ℝ) :
    (get_results_ideal .adiabatic cp cv R k T1 P1 v1 rv rp n).P2 =
      P1 * (v1 / (v1 * rv)) ^ k := by
  simp only [get_results_ideal]

theorem get_results_adiabatic_W_close (cp cv R k T1 P1 v1 rv rp : ℝ) (n : Option ℝ)
    (hc : np_isclose k 1) :
    (get_results_ideal .adiabatic cp cv R k T1 P1 v1 rv rp n).W =
      R * T1 * Real.log (v1 * rv / v1) := by
  simp only [get_results_ideal]
  rw [if_pos hc]

/-- C2 (amended): the ideal-gas process evaluator computes the second state
and boundary work per kind exactly as the claimed table, except that for the
adiabatic kind — exactly as for polytropic — the work falls back to
`R·T1·ln(v2/v1)` when the exponent is within `np.isclose` tolerance of 1,
and equals `(P2·v2−P1·v1)/(1−k)` only otherwise; for every kind
`Q = Δu + W`, `Δs = cp·ln(T2/T1) − R·ln(P2/P1)` and
`s1 = cp·ln(T1) − R·ln(P1)`, `s2 = s1 + Δs`. -/
theorem claim2_theorem (pt : IdealProcess) (cp cv R k T1 P1 v1 rv rp nv : ℝ)
    (r : IdealResults)
    (hr : get_results_ideal pt cp cv R k T1 P1 v1 rv rp (some nv) = r) :
    (pt = .isochoric → r.v2 = v1 ∧ r.P2 = P1 * rp ∧ r.T2 = T1 * rp ∧ r.W = 0)
  ∧ (pt = .isobaric → r.v2 = v1 * rv ∧ r.P2 = P1 ∧ r.T2 = T1 * rv ∧
      r.W = P1 * (r.v2 - v1))
  ∧ (pt = .isothermal → r.v2 = v1 * rv ∧ r.P2 = P1 * v1 / r.v2 ∧ r.T2 = T1 ∧
      r.W = R * T1 * Real.log (r.v2 / v1))
  ∧ (pt = .adiabatic → r.v2 = v1 * rv ∧ r.P2 = P1 * (v1 / r.v2) ^ k ∧
      r.T2 = T1 * (v1 / r.v2) ^ (k - 1) ∧
      (np_isclose k 1 → r.W = R * T1 * Real.log (r.v2 / v1)) ∧
      (¬ np_isclose k 1 → r.W = (r.P2 * r.v2 - P1 * v1) / (1 - k)))
  ∧ (pt = .polytropic → r.v2 = v1 * rv ∧ r.P2 = P1 * (v1 / r.v2) ^ nv ∧
      r.T2 = T1 * (v1 / r.v2) ^ (nv - 1) ∧
      (np_isclose nv 1 → r.W = R * T1 * Real.log (r.v2 / v1)) ∧
      (¬ np_isclose nv 1 → r.W = (r.P2 * r.v2 - P1 * v1) / (1 - nv)))
  ∧ r.Q = r.delta_u + r.W
  ∧ r.delta_s = cp * Real.log (r.T2 / T1) - R * Real.log (r.P2 / P1)
  ∧ r.s1 = cp * Real.log T1 - R * Real.log P1
  ∧ r.s2 = r.s1 + r.delta_s
  ∧ r.delta_u = cv * r.T2 - cv * T1
  ∧ r.delta_h = cp * r.T2 - cp * T1 := by
  subst hr
  cases pt with
  | isochoric =>
      exact ⟨fun _ => ⟨rfl, rfl, rfl, rfl⟩,
        fun hpt => IdealProcess.noConfusion hpt,
        fun hpt => IdealProcess.noConfusion hpt,
        fun hpt => IdealProcess.noConfusion hpt,
        fun hpt => IdealProcess.noConfusion hpt,
        rfl, rfl, rfl, rfl, rfl, rfl⟩
  | isobaric =>
      exact ⟨fun hpt => IdealProcess.noConfusion hpt,
        fun _ => ⟨rfl, rfl, rfl, rfl⟩,
        fun hpt => IdealProcess.noConfusion hpt,
        fun hpt => IdealProcess.noConfusion hpt,
        fun hpt => IdealProcess.noConfusion hpt,
        rfl, rfl, rfl, rfl, rfl, rfl⟩
  | isothermal =>
      refine ⟨fun hpt => IdealProcess.noConfusion hpt,
        fun hpt => IdealProcess.noConfusion hpt,
        fun _ => ⟨rfl, ?_, rfl, rfl⟩,
        fun hpt => IdealProcess.noConfusion hpt,
        fun hpt => IdealProcess.noConfusion hpt,
        rfl, rfl, rfl, rfl, rfl, rfl⟩
      exact (mul_div_assoc P1 v1 (v1 * rv)).symm
  | adiabatic =>
      refine ⟨fun hpt => IdealProcess.noConfusion hpt,
        fun hpt => IdealProcess.noConfusion hpt,
        fun hpt => IdealProcess.noConfusion hpt,
        fun _ => ⟨rfl, rfl, rfl, fun hc => ?_, fun hc => ?_⟩,
        fun hpt => IdealProcess.noConfusion hpt,
        rfl, rfl, rfl, rfl, rfl, rfl⟩
      · exact get_results_adiabatic_W_close cp cv R k T1 P1 v1 rv rp (some nv) hc
      · simp only [get_results_ideal]
        rw [if_neg hc]
  | polytropic =>
      refine ⟨fun hpt => IdealProcess.noConfusion hpt,
        fun hpt => IdealProcess.noConfusion hpt,
        fun hpt => IdealProcess.noConfusion hpt,
        fun hpt => IdealProcess.noConfusion hpt,
        fun _ => ⟨rfl, rfl, rfl, fun hc => ?_, fun hc => ?_⟩,
        rfl, rfl, rfl, rfl, rfl, rfl⟩
      · simp only [get_results_ideal, Option.getD_some]
        rw [if_pos hc]
      · simp only [get_results_ideal, Option.getD_some]
        rw [if_neg hc]

/-- C2 counterexample: for a (reachable) custom gas with k = 1 + 1e-6, the
adiabatic work is computed by the `np.isclose` logarithmic fallback and is
strictly greater than the claimed closed form `(P2·v2−P1·v1)/(1−k)`, so the
claim's adiabatic work formula is false as stated. -/
theorem claim2_counterexample :
    np_isclose (1 + 1e-6) 1 ∧
    (get_results_ideal .adiabatic (1 + 1e-6) 1 1e-6 (1 + 1e-6) 1e8 100 1 2 1 none).W ≠
      ((get_results_ideal .adiabatic (1 + 1e-6) 1 1e-6 (1 + 1e-6) 1e8 100 1 2 1 none).P2 *
          (get_results_ideal .adiabatic (1 + 1e-6) 1 1e-6 (1 + 1e-6) 1e8 100 1 2 1 none).v2
        - 100 * 1) / (1 - (1 + 1e-6)) := by
  have hε : (0:ℝ) < 1e-6 := by norm_num
  have hlog2 : (0:ℝ) < Real.log 2 := Real.log_pos (by norm_num)
  have hclose : np_isclose (1 + 1e-6) 1 := by
    rw [np_isclose, show (1:ℝ) + 1e-6 - 1 = 1e-6 by ring, abs_of_pos hε, abs_one]
    norm_num
  refine ⟨hclose, ?_⟩
  rw [get_results_adiabatic_W_close _ _ _ _ _ _ _ _ _ _ hclose,
    get_results_adiabatic_P2, get_results_adiabatic_v2]
  have hpow : ((1:ℝ) / (1 * 2)) ^ ((1:ℝ) + 1e-6) =
      1 / 2 * Real.exp (-(Real.log 2 * 1e-6)) := by
    rw [show (1:ℝ) / (1 * 2) = 1 / 2 by norm_num,
      Real.rpow_add (by norm_num : (0:ℝ) < 1 / 2), Real.rpow_one]
    congr 1
    rw [Real.rpow_def_of_pos (by norm_num : (0:ℝ) < 1 / 2), one_div, Real.log_inv]
    ring_nf
  rw [hpow, show Real.log ((1:ℝ) * 2 / 1) = Real.log 2 by norm_num]
  have hE : 1 - Real.log 2 * 1e-6 < Real.exp (-(Real.log 2 * 1e-6)) := by
    have hne : -(Real.log 2 * 1e-6) ≠ 0 := by
      refine neg_ne_zero.2 (ne_of_gt ?_)
      positivity
    have := Real.add_one_lt_exp hne
    linarith
  intro heq
  rw [show (1:ℝ) - (1 + 1e-6) = -(1e-6) by ring] at heq
  rw [eq_div_iff (by norm_num : -(1e-6 : ℝ) ≠ 0)] at heq
  nlinarith [hE, hlog2, Real.exp_pos (-(Real.log 2 * 1e-6))]

/-- C2 witness: the isothermal row of the table at a concrete input. -/
theorem claim2_witness :
    (get_results_ideal .isothermal 2 1 1 (7/5) 300 100 1 2 1 (some 2)).v2 = 1 * 2
  ∧ (get_results_ideal .isothermal 2 1 1 (7/5) 300 100 1 2 1 (some 2)).T2 = 300
  ∧ (get_results_ideal .isothermal 2 1 1 (7/5) 300 100 1 2 1 (some 2)).W =
      1 * 300 * Real.log ((get_results_ideal .isothermal 2 1 1 (7/5) 300 100 1 2 1
        (some 2)).v2 / 1)
  ∧ (get_results_ideal .isothermal 2 1 1 (7/5) 300 100 1 2 1 (some 2)).Q =
      (get_results_ideal .isothermal 2 1 1 (7/5) 300 100 1 2 1 (some 2)).delta_u +
        (get_results_ideal .isothermal 2 1 1 (7/5) 300 100 1 2 1 (some 2)).W := by
  have h := claim2_theorem .isothermal 2 1 1 (7/5) 300 100 1 2 1 2 _ rfl
  obtain ⟨hiso, hQ⟩ := And.intro (h.2.2.1 rfl) h.2.2.2.2.2.1
  exact ⟨hiso.1, hiso.2.2.1, hiso.2.2.2, hQ⟩

theorem foldl_min_of_le (f : Row → ℚ) :
    ∀ (t : List Row) (a : ℚ), (∀ r ∈ t, a ≤ f r) →
      t.foldl (fun m r => min m (f r)) a = a := by
  intro t
  induction t with
  | nil => intro a _; rfl
  | cons b t ih =>
      intro a h
      rw [List.foldl_cons, min_eq_left (h b (List.mem_cons_self b t))]
      exact ih a fun r hr => h r (List.mem_cons_of_mem b hr)

theorem colMin_sorted_head {f : Row → ℚ} {a : Row} {t : List Row}
    (hs : (a :: t).Pairwise fun x y => f x < f y) : colMin (a :: t) f = f a := by
  rw [colMin]
  exact foldl_min_of_le f t (f a) fun r hr =>
    le_of_lt ((List.pairwise_cons.1 hs).1 r hr)

theorem sorted_le_getLast {f : Row → ℚ} :
    ∀ {l : List Row} (_hs : l.Pairwise fun x y => f x < f y) (hne : l ≠ [])
      (r : Row), r ∈ l → f r ≤ f (l.getLast hne) := by
  intro l
  induction l with
  | nil => intro _ hne; exact absurd rfl hne
  | cons a t ih =>
      intro hs hne r hr
      cases t with
      | nil =>
          rcases List.mem_cons.1 hr with h | h
          · subst h; exact le_refl _
          · exact absurd h (List.not_mem_nil r)
      | cons b t' =>
          rw [List.getLast_cons (by simp)]
          rcases List.mem_cons.1 hr with h | h
          · subst h
            exact le_of_lt ((List.pairwise_cons.1 hs).1 _
              (@List.getLast_mem _ (b :: t') (by simp)))
          · exact ih (List.pairwise_cons.1 hs).2 (by simp) r h

theorem colMax_sorted_getLast {f : Row → ℚ} :
    ∀ {l : List Row} (hs : l.Pairwise fun x y => f x < f y) (hne : l ≠ []),
      colMax l f = f (l.getLast hne) := by
  intro l
  induction l with
  | nil => intro _ hne; exact absurd rfl hne
  | cons a t ih =>
      intro hs hne
      cases t with
      | nil => rfl
      | cons b t' =>
          rw [List.getLast_cons (by simp)]
          have hab : f a < f b := (List.pairwise_cons.1 hs).1 b (List.mem_cons_self b t')
          have : colMax (a :: b :: t') f = colMax (b :: t') f := by
            rw [colMax, colMax, List.foldl_cons, max_eq_right (le_of_lt hab)]
          rw [this]
          exact ih (List.pairwise_cons.1 hs).2 (by simp)

theorem bracketLow_at_head {f : Row → ℚ} {a : Row} {t : List Row}
    (hs : (a :: t).Pairwise fun x y => f x < f y) :
    bracketLow f (a :: t) (f a) = some a := by
  rw [bracketLow, List.filter_cons, if_pos (decide_eq_true (le_refl (f a)))]
  rw [List.filter_eq_nil_iff.2 fun r hr => by
    simp only [decide_eq_true_eq]
    exact not_le.2 ((List.pairwise_cons.1 hs).1 r hr)]
  rfl

theorem bracketHigh_at_head {f : Row → ℚ} (a : Row) (t : List Row) :
    bracketHigh f (a :: t) (f a) = some a := by
  rw [bracketHigh, List.filter_cons, if_pos (decide_eq_true (le_refl (f a)))]
  rfl

theorem bracketLow_at_getLast {f : Row → ℚ} {l : List Row}
    (hs : l.Pairwise fun x y => f x < f y) (hne : l ≠ []) :
    bracketLow f l (f (l.getLast hne)) = some (l.getLast hne) := by
  rw [bracketLow, List.filter_eq_self.2 fun r hr =>
    decide_eq_true (sorted_le_getLast hs hne r hr)]
  exact List.getLast?_eq_getLast l hne

theorem bracketHigh_at_getLast {f : Row → ℚ} :
    ∀ {l : List Row} (hs : l.Pairwise fun x y => f x < f y) (hne : l ≠ []),
      bracketHigh f l (f (l.getLast hne)) = some (l.getLast hne) := by
  intro l
  induction l with
  | nil => intro _ hne; exact absurd rfl hne
  | cons a t ih =>
      intro hs hne
      cases t with
      | nil =>
          rw [bracketHigh, List.getLast_singleton, List.filter_cons,
            if_pos (decide_eq_true (le_refl _))]
          rfl
      | cons b t' =>
          have hlast : (a :: b :: t').getLast hne = (b :: t').getLast (by simp) :=
            List.getLast_cons (by simp)
          have halt : f a < f ((b :: t').getLast (by simp)) :=
            (List.pairwise_cons.1 hs).1 _ (@List.getLast_mem _ (b :: t') (by simp))
          rw [bracketHigh, hlast, List.filter_cons,
            if_neg (by simp only [decide_eq_true_eq]; exact not_le.2 halt)]
          exact ih (List.pairwise_cons.1 hs).2 (by simp)

theorem linInterp_self (key val : Row → ℚ) (lo : Row) (q : ℚ) :
    linInterp key val lo lo q = val lo := by
  rw [linInterp, if_pos rfl]

/-- C10: for a nonempty table, `interpolate_water_property_by_T` is total —
it neither raises nor returns `None` — and a temperature outside the table
range is silently clamped: the result equals the lookup at the nearest
bound, and on a strictly monotone table it is exactly the boundary row's
value, with no flag reporting the clamp. -/
theorem claim10_theorem (table : List Row) (T_C : ℚ) (prop : Row → ℚ)
    (hne : table ≠ []) :
    (∃ v, interpolate_water_property_by_T table T_C prop = .ok (some v))
  ∧ (T_C < colMin table (fun r => r.T_sat) →
      interpolate_water_property_by_T table T_C prop =
        interpolate_water_property_by_T table (colMin table (fun r => r.T_sat)) prop)
  ∧ (colMax table (fun r => r.T_sat) < T_C →
      interpolate_water_property_by_T table T_C prop =
        interpolate_water_property_by_T table (colMax table (fun r => r.T_sat)) prop)
  ∧ ((table.Pairwise fun x y => x.T_sat < y.T_sat) →
      (T_C < colMin table (fun r => r.T_sat) →
        ∃ hd, table.head? = some hd ∧
          interpolate_water_property_by_T table T_C prop = .ok (some (prop hd)))
    ∧ (colMax table (fun r => r.T_sat) < T_C →
        ∃ lst, table.getLast? = some lst ∧
          interpolate_water_property_by_T table T_C prop = .ok (some (prop lst)))) := by
  have hmm := colMin_le_colMax (fun r => r.T_sat) hne
  refine ⟨interp_total hne T_C prop, fun h => interp_clamp_below hne prop h,
    fun h => interp_clamp_above hne prop h, fun hs => ⟨?_, ?_⟩⟩
  · intro h
    cases table with
    | nil => exact absurd rfl hne
    | cons a t =>
        have hmin : colMin (a :: t) (fun r => r.T_sat) = a.T_sat := colMin_sorted_head hs
        have hclamp : clampTo (colMin (a :: t) (fun r => r.T_sat))
            (colMax (a :: t) (fun r => r.T_sat)) (colMin (a :: t) (fun r => r.T_sat)) =
            a.T_sat := by
          rw [clampTo_of_mem (le_refl _) hmm, hmin]
        have hlo : bracketLow (fun r => r.T_sat) (a :: t)
            (clampTo (colMin (a :: t) (fun r => r.T_sat))
              (colMax (a :: t) (fun r => r.T_sat))
              (colMin (a :: t) (fun r => r.T_sat))) = some a := by
          rw [hclamp]
          exact bracketLow_at_head hs
        have hhi : bracketHigh (fun r => r.T_sat) (a :: t)
            (clampTo (colMin (a :: t) (fun r => r.T_sat))
              (colMax (a :: t) (fun r => r.T_sat))
              (colMin (a :: t) (fun r => r.T_sat))) = some a := by
          rw [hclamp]
          exact bracketHigh_at_head a t
        refine ⟨a, rfl, ?_⟩
        rw [interp_clamp_below hne prop h, interp_eq_of_brackets hne hlo hhi,
          hclamp, linInterp_self]
  · intro h
    have hmax : colMax table (fun r => r.T_sat) = (table.getLast hne).T_sat :=
      colMax_sorted_getLast hs hne
    have hclamp : clampTo (colMin table (fun r => r.T_sat))
        (colMax table (fun r => r.T_sat)) (colMax table (fun r => r.T_sat)) =
        (table.getLast hne).T_sat := by
      rw [clampTo_of_mem hmm (le_refl _), hmax]
    have hlo : bracketLow (fun r => r.T_sat) table
        (clampTo (colMin table (fun r => r.T_sat)) (colMax table (fun r => r.T_sat))
          (colMax table (fun r => r.T_sat))) = some (table.getLast hne) := by
      rw [hclamp]
      exact bracketLow_at_getLast hs hne
    have hhi : bracketHigh (fun r => r.T_sat) table
        (clampTo (colMin table (fun r => r.T_sat)) (colMax table (fun r => r.T_sat))
          (colMax table (fun r => r.T_sat))) = some (table.getLast hne) := by
      rw [hclamp]
      exact bracketHigh_at_getLast hs hne
    refine ⟨table.getLast hne, List.getLast?_eq_getLast table hne, ?_⟩
    rw [interp_clamp_above hne prop h, interp_eq_of_brackets hne hlo hhi,
      hclamp, linInterp_self]

/-- C10 witness: on the sample table, lookups at 40 (below the minimum 50)
and 200 (above the maximum 150) are clamped to the boundary rows. -/
theorem claim10_witness :
    (∃ v, interpolate_water_property_by_T sampleTable 40 (fun r => r.vf) = .ok (some v))
  ∧ interpolate_water_property_by_T sampleTable 200 (fun r => r.vf) =
      interpolate_water_property_by_T sampleTable
        (colMax sampleTable (fun r => r.T_sat)) (fun r => r.vf)
  ∧ (∃ hd, sampleTable.head? = some hd ∧
      interpolate_water_property_by_T sampleTable 40 (fun r => r.vf) =
        .ok (some (hd.vf))) := by
  have hne : sampleTable ≠ [] := by simp [sampleTable]
  have hso : sampleTable.Pairwise fun x y => x.T_sat < y.T_sat := by
    norm_num [sampleTable, row50, row100, row150]
  have hmin : (40:ℚ) < colMin sampleTable (fun r => r.T_sat) := by
    norm_num [sampleTable, colMin, row50, row100, row150]
  have hmax : colMax sampleTable (fun r => r.T_sat) < 200 := by
    norm_num [sampleTable, colMax, row50, row100, row150]
  have h := claim10_theorem sampleTable 40 (fun r => r.vf) hne
  have h2 := claim10_theorem sampleTable 200 (fun r => r.vf) hne
  exact ⟨h.1, h2.2.2.1 hmax, (h.2.2.2 hso).1 hmin⟩

theorem insertSorted_of_lt {f : Row → ℚ} (a : Row) :
    ∀ (t : List Row), (∀ r ∈ t, f a < f r) → insertSorted f a t = a :: t := by
  intro t h
  cases t with
  | nil => rfl
  | cons b t' =>
      rw [insertSorted, if_pos (le_of_lt (h b (List.mem_cons_self b t')))]

theorem sortRows_eq_self {f : Row → ℚ} :
    ∀ {l : List Row}, (l.Pairwise fun x y => f x < f y) → sortRows f l = l := by
  intro l
  induction l with
  | nil => intro _; rfl
  | cons a t ih =>
      intro hs
      have h1 := (List.pairwise_cons.1 hs).1
      have h2 := (List.pairwise_cons.1 hs).2
      rw [sortRows, List.foldr_cons]
      have : t.foldr (insertSorted f) [] = t := by rw [← sortRows]; exact ih h2
      rw [this]
      exact insertSorted_of_lt a t h1

theorem rhe_le_floor_add_one (q : ℚ) : rhe q ≤ ⌊q⌋ + 1 := by
  rw [rhe]
  split
  · exact le_of_lt (lt_add_one _)
  split
  · exact le_refl _
  split
  · exact le_of_lt (lt_add_one _)
  · exact le_refl _

theorem floor_le_rhe (q : ℚ) : ⌊q⌋ ≤ rhe q := by
  rw [rhe]
  split
  · exact le_refl _
  split
  · exact le_of_lt (lt_add_one _)
  split
  · exact le_refl _
  · exact le_of_lt (lt_add_one _)

theorem rhe_mono {x y : ℚ} (h : x ≤ y) : rhe x ≤ rhe y := by
  have hf : ⌊x⌋ ≤ ⌊y⌋ := Int.floor_mono h
  rcases lt_or_eq_of_le hf with hlt | heq
  · calc rhe x ≤ ⌊x⌋ + 1 := rhe_le_floor_add_one x
      _ ≤ ⌊y⌋ := by omega
      _ ≤ rhe y := floor_le_rhe y
  · have hfr : x - (⌊x⌋ : ℚ) ≤ y - (⌊y⌋ : ℚ) := by
      rw [← heq]
      exact sub_le_sub_right h _
    by_cases hx1 : x - (⌊x⌋ : ℚ) < 1/2
    · have hxe : rhe x = ⌊x⌋ := by
        simp only [rhe]
        rw [if_pos hx1]
      rw [hxe, heq]
      exact floor_le_rhe y
    · have hy1 : ¬(y - (⌊y⌋ : ℚ) < 1/2) := fun hy => hx1 (lt_of_le_of_lt hfr hy)
      by_cases hx2 : 1/2 < x - (⌊x⌋ : ℚ)
      · have hy2 : 1/2 < y - (⌊y⌋ : ℚ) := lt_of_lt_of_le hx2 hfr
        simp only [rhe]
        rw [if_neg hx1, if_neg hy1, if_pos hx2, if_pos hy2, heq]
      · by_cases hy2 : 1/2 < y - (⌊y⌋ : ℚ)
        · have hye : rhe y = ⌊y⌋ + 1 := by
            simp only [rhe]
            rw [if_neg hy1, if_pos hy2]
          rw [hye, ← heq]
          exact rhe_le_floor_add_one x
        · simp only [rhe]
          rw [if_neg hx1, if_neg hy1, if_neg hx2, if_neg hy2, heq]

theorem roundDp_mono (d : ℕ) {x y : ℚ} (h : x ≤ y) : roundDp d x ≤ roundDp d y := by
  rw [roundDp, roundDp]
  have hpow : (0:ℚ) < 10 ^ d := by positivity
  refine (div_le_div_iff_of_pos_right hpow).mpr ?_
  exact_mod_cast rhe_mono (mul_le_mul_of_nonneg_right h (le_of_lt hpow))

theorem interpAt_eq_of_brackets {f g : Row → ℚ} {l : List Row} {q : ℚ} {lo hi : Row}
    (hlo : bracketLow f l q = some lo) (hhi : bracketHigh f l q = some hi) :
    interpAt f g l q = linInterp f g lo hi q := by
  simp only [interpAt, hlo, hhi]

theorem get_tsat_within {table : List Row} {P : ℚ}
    (hP : table.Pairwise fun x y => x.P_bar < y.P_bar) (hne : table ≠ [])
    (h1 : colMin table (fun r => r.P_bar) ≤ P) (h2 : P ≤ colMax table (fun r => r.P_bar)) :
    get_tsat table P =
      (some (roundDp 5 (interpAt (fun r => r.P_bar) (fun r => r.T_sat) table P)), false) := by
  obtain ⟨lo, hlo⟩ := @bracketLow_some (fun r => r.P_bar) table _ hne h1
  obtain ⟨hi, hhi⟩ := @bracketHigh_some (fun r => r.P_bar) table _ hne h2
  have hcl : clampTo (colMin table (fun r => r.P_bar)) (colMax table (fun r => r.P_bar)) P
      = P := clampTo_of_mem h1 h2
  simp only [get_tsat, if_neg hne, sortRows_eq_self hP, hcl, hlo, hhi,
    interpAt_eq_of_brackets hlo hhi, decide_eq_false (not_lt.2 h1),
    decide_eq_false (not_lt.2 h2), Bool.or_self]

theorem bracketLow_seg {f : Row → ℚ} {a b : Row} {t : List Row} {q : ℚ}
    (hs : (a :: b :: t).Pairwise fun x y => f x < f y)
    (h1 : f a ≤ q) (h2 : q < f b) :
    bracketLow f (a :: b :: t) q = some a := by
  have ht : ∀ r ∈ t, f b < f r := (List.pairwise_cons.1 (List.pairwise_cons.1 hs).2).1
  rw [bracketLow, List.filter_cons, if_pos (decide_eq_true h1), List.filter_cons,
    if_neg (by simp only [decide_eq_true_eq]; exact not_le.2 h2),
    List.filter_eq_nil_iff.2 fun r hr => by
      simp only [decide_eq_true_eq]
      exact not_le.2 (lt_trans h2 (ht r hr))]
  rfl

theorem bracketLow_at_snd {f : Row → ℚ} {a b : Row} {t : List Row}
    (hs : (a :: b :: t).Pairwise fun x y => f x < f y) :
    bracketLow f (a :: b :: t) (f b) = some b := by
  have hab : f a < f b := (List.pairwise_cons.1 hs).1 b (List.mem_cons_self _ _)
  have ht : ∀ r ∈ t, f b < f r := (List.pairwise_cons.1 (List.pairwise_cons.1 hs).2).1
  rw [bracketLow, List.filter_cons, if_pos (decide_eq_true (le_of_lt hab)),
    List.filter_cons, if_pos (decide_eq_true (le_refl _)),
    List.filter_eq_nil_iff.2 fun r hr => by
      simp only [decide_eq_true_eq]
      exact not_le.2 (ht r hr)]
  rfl

theorem bracketHigh_seg {f : Row → ℚ} {a b : Row} {t : List Row} {q : ℚ}
    (h1 : f a < q) (h2 : q ≤ f b) :
    bracketHigh f (a :: b :: t) q = some b := by
  rw [bracketHigh, List.filter_cons,
    if_neg (by simp only [decide_eq_true_eq]; exact not_le.2 h1),
    List.filter_cons, if_pos (decide_eq_true h2)]
  rfl

theorem bracketLow_tail {f : Row → ℚ} {a b : Row} {t : List Row} {q : ℚ}
    (hs : (a :: b :: t).Pairwise fun x y => f x < f y) (hq : f b ≤ q) :
    bracketLow f (a :: b :: t) q = bracketLow f (b :: t) q := by
  have hab : f a < f b := (List.pairwise_cons.1 hs).1 b (List.mem_cons_self _ _)
  rw [bracketLow, bracketLow, List.filter_cons,
    if_pos (decide_eq_true (le_trans (le_of_lt hab) hq))]
  have hmem : b ∈ (b :: t).filter fun r => decide (f r ≤ q) :=
    List.mem_filter.2 ⟨List.mem_cons_self _ _, decide_eq_true hq⟩
  cases hfil : (b :: t).filter fun r => decide (f r ≤ q) with
  | nil => exact absurd (hfil ▸ hmem) (List.not_mem_nil b)
  | cons c cs => exact List.getLast?_cons_cons

theorem bracketHigh_tail {f : Row → ℚ} {a b : Row} {t : List Row} {q : ℚ}
    (hs : (a :: b :: t).Pairwise fun x y => f x < f y) (hq : f b ≤ q) :
    bracketHigh f (a :: b :: t) q = bracketHigh f (b :: t) q := by
  have hab : f a < f b := (List.pairwise_cons.1 hs).1 b (List.mem_cons_self _ _)
  rw [bracketHigh, bracketHigh, List.filter_cons,
    if_neg (by
      simp only [decide_eq_true_eq]
      exact not_le.2 (lt_of_lt_of_le hab hq))]

theorem interpAt_at_head {f g : Row → ℚ} {a : Row} {t : List Row}
    (hs : (a :: t).Pairwise fun x y => f x < f y) :
    interpAt f g (a :: t) (f a) = g a := by
  rw [interpAt_eq_of_brackets (bracketLow_at_head hs) (bracketHigh_at_head a t),
    linInterp_self]

theorem interpAt_tail {f g : Row → ℚ} {a b : Row} {t : List Row} {q : ℚ}
    (hs : (a :: b :: t).Pairwise fun x y => f x < f y) (hq : f b ≤ q) :
    interpAt f g (a :: b :: t) q = interpAt f g (b :: t) q := by
  simp only [interpAt, bracketLow_tail hs hq, bracketHigh_tail hs hq]

theorem interpAt_seg {f g : Row → ℚ} {a b : Row} {t : List Row} {q : ℚ}
    (hs : (a :: b :: t).Pairwise fun x y => f x < f y)
    (h1 : f a ≤ q) (h2 : q ≤ f b) :
    interpAt f g (a :: b :: t) q = g a + (g b - g a) * (q - f a) / (f b - f a) := by
  have hab : f a < f b := (List.pairwise_cons.1 hs).1 b (List.mem_cons_self _ _)
  have hD : f b - f a ≠ 0 := sub_ne_zero.2 (ne_of_gt hab)
  rcases eq_or_lt_of_le h1 with he | hlt
  · rw [← he, interpAt_at_head hs, sub_self, mul_zero, zero_div, add_zero]
  · rcases eq_or_lt_of_le h2 with he2 | hlt2
    · rw [he2, interpAt_eq_of_brackets (bracketLow_at_snd hs)
        (bracketHigh_seg (he2 ▸ hlt) (le_refl _)), linInterp_self,
        mul_div_assoc, div_self hD, mul_one]
      ring
    · rw [interpAt_eq_of_brackets (bracketLow_seg hs h1 hlt2)
        (bracketHigh_seg hlt (le_of_lt hlt2)), linInterp, if_neg (ne_of_lt hab)]

theorem linSeg_mono {f g : Row → ℚ} {a b : Row} (hab : f a < f b) (hg : g a ≤ g b)
    {qa qb : ℚ} (h : qa ≤ qb) :
    g a + (g b - g a) * (qa - f a) / (f b - f a) ≤
      g a + (g b - g a) * (qb - f a) / (f b - f a) := by
  have hD : 0 < f b - f a := sub_pos.2 hab
  apply add_le_add_left
  apply (div_le_div_iff_of_pos_right hD).mpr
  exact mul_le_mul_of_nonneg_left (sub_le_sub_right h _) (sub_nonneg.2 hg)

theorem interpAt_mono {f g : Row → ℚ} :
    ∀ {l : List Row}, (l.Pairwise fun x y => f x < f y) →
      (l.Pairwise fun x y => g x < g y) → ∀ (hne : l ≠ []) {qa qb : ℚ},
      f (l.head hne) ≤ qa → qa ≤ qb → qb ≤ f (l.getLast hne) →
      interpAt f g l qa ≤ interpAt f g l qb := by
  intro l
  induction l with
  | nil => intro _ _ hne; exact absurd rfl hne
  | cons a t ih =>
      intro hsf hsg hne qa qb h1 hab h2
      cases t with
      | nil =>
          have h2' : qb ≤ f a := by simpa using h2
          have e1 : qa = f a := le_antisymm (le_trans hab h2') h1
          have e2 : qb = f a := le_antisymm h2' (le_trans h1 hab)
          rw [e1, e2]
      | cons b t' =>
          have hab' : f a < f b := (List.pairwise_cons.1 hsf).1 b (List.mem_cons_self _ _)
          have hgab : g a < g b := (List.pairwise_cons.1 hsg).1 b (List.mem_cons_self _ _)
          have hlast : (a :: b :: t').getLast hne = (b :: t').getLast (by simp) :=
            List.getLast_cons (by simp)
          rw [hlast] at h2
          have htf := (List.pairwise_cons.1 hsf).2
          have htg := (List.pairwise_cons.1 hsg).2
          by_cases hqb : qb ≤ f b
          · rw [interpAt_seg hsf h1 (le_trans hab hqb),
              interpAt_seg hsf (le_trans h1 hab) hqb]
            exact linSeg_mono hab' (le_of_lt hgab) hab
          · push_neg at hqb
            by_cases hqa : f b ≤ qa
            · rw [interpAt_tail hsf hqa, interpAt_tail hsf (le_of_lt hqb)]
              exact ih htf htg (by simp) hqa hab h2
            · push_neg at hqa
              have hD : f b - f a ≠ 0 := sub_ne_zero.2 (ne_of_gt hab')
              calc interpAt f g (a :: b :: t') qa
                  = g a + (g b - g a) * (qa - f a) / (f b - f a) :=
                    interpAt_seg hsf h1 (le_of_lt hqa)
                _ ≤ g a + (g b - g a) * (f b - f a) / (f b - f a) :=
                    linSeg_mono hab' (le_of_lt hgab) (le_of_lt hqa)
                _ = g b := by rw [mul_div_assoc, div_self hD, mul_one]; ring
                _ = interpAt f g (b :: t') (f b) := (interpAt_at_head htf).symm
                _ ≤ interpAt f g (b :: t') qb :=
                    ih htf htg (by simp) (le_refl _) (le_of_lt hqb) h2
                _ = interpAt f g (a :: b :: t') qb :=
                    (interpAt_tail hsf (le_of_lt hqb)).symm

theorem colMin_sorted_head' {f : Row → ℚ} {l : List Row}
    (hs : l.Pairwise fun x y => f x < f y) (hne : l ≠ []) :
    colMin l f = f (l.head hne) := by
  cases l with
  | nil => exact absurd rfl hne
  | cons a t => exact colMin_sorted_head hs

/-- C8: on a table strictly monotone in both `T_sat` and `P_bar`, the
interpolated (and rounded) saturation temperature is monotone in the
pressure: for `Pa < Pb` within the table bounds,
`get_tsat(Pa) <= get_tsat(Pb)`, and neither lookup is clamped or fails. -/
theorem claim8_theorem (table : List Row) (Pa Pb : ℚ)
    (hP : table.Pairwise fun x y => x.P_bar < y.P_bar)
    (hT : table.Pairwise fun x y => x.T_sat < y.T_sat)
    (hne : table ≠ [])
    (h1 : colMin table (fun r => r.P_bar) ≤ Pa) (hab : Pa < Pb)
    (h2 : Pb ≤ colMax table (fun r => r.P_bar)) :
    ∃ ta tb, (get_tsat table Pa).1 = some ta ∧ (get_tsat table Pb).1 = some tb ∧
      ta ≤ tb := by
  have h1b : colMin table (fun r => r.P_bar) ≤ Pb := le_trans h1 (le_of_lt hab)
  have h2a : Pa ≤ colMax table (fun r => r.P_bar) := le_trans (le_of_lt hab) h2
  rw [get_tsat_within hP hne h1 h2a, get_tsat_within hP hne h1b h2]
  refine ⟨_, _, rfl, rfl, roundDp_mono 5 ?_⟩
  apply interpAt_mono hP hT hne
  · rw [← colMin_sorted_head' hP hne]
    exact h1
  · exact le_of_lt hab
  · rw [← colMax_sorted_getLast hP hne]
    exact h2

/-- C8 witness: on the sample table, pressures 3/2 < 3 within the bounds
[1, 4] give ordered saturation temperatures. -/
theorem claim8_witness :
    ∃ ta tb, (get_tsat sampleTable (3/2)).1 = some ta ∧
      (get_tsat sampleTable 3).1 = some tb ∧ ta ≤ tb := by
  apply claim8_theorem sampleTable (3/2) 3
  · norm_num [sampleTable, row50, row100, row150]
  · norm_num [sampleTable, row50, row100, row150]
  · simp [sampleTable]
  · norm_num [sampleTable, colMin, row50, row100, row150]
  · norm_num
  · norm_num [sampleTable, colMax, row50, row100, row150]
